import Mathlib

/-!
# Verification of the sitemap-crawler core

A shallow embedding, in Lean 4, of the core components of the
`benvon/sitemap-crawler` Go repository, together with theorems settling the
specification claims about them.

Embedded components and their Go sources:

* the statistics aggregator (`internal/stats/stats.go`);
* the backoff controller (`internal/backoff`);
* the sitemap parser (`internal/parser`);
* the rate-limiter construction structure of the crawl orchestrator
  (`internal/crawler`).

Modelling conventions:

* `time.Duration` values handled by these components are nonnegative
  nanosecond counts (they are produced by `time.Since` or come from validated
  configuration), modelled as `Nat`.  Go's `int64` division on such values
  agrees with `Nat` division.
* `time.Time` is modelled as a nanosecond instant on an unbounded integer
  axis (`Int`), so that `t.Add(-window)` never truncates.
* Go `float64` configuration values (`multiplier`,
  `responseTimeDegradationThreshold`) are modelled as exact rationals; the
  conversion `time.Duration(x)` of a nonnegative float truncates toward zero,
  which for nonnegative rationals is `Rat.floor`.
-/

namespace SitemapCrawler

/-- `time.Hour` in nanoseconds: the sentinel used by `stats.New` to
initialise `minDuration`. -/
def hourNs : Nat := 3600 * 1000000000

/-- Go `time.Duration(q)` for a nonnegative float `q` (truncation toward
zero, which is `floor` on nonnegative values). -/
def ratToDur (q : Rat) : Nat := (Int.floor q).toNat

/-! ## Statistics aggregator (`internal/stats/stats.go`) -/

/-- Go `stats.Result`: the record a worker produces for one URL. -/
structure Result where
  url : String
  success : Bool
  statusCode : Nat
  errorText : String
  duration : Nat
  cacheStatus : String
deriving DecidableEq

/-- The mutable fields of Go `stats.Stats`.  The wall-clock fields
(`startTime`, `warmUpStart`, `warmUpEnd`, `verifyStart`, `verifyEnd`) are
modelled as `Option Int`, `none` standing for Go's zero `time.Time`
(`IsZero`).  `warmUpEnd`/`verifyEnd` are carried for completeness; no claim
reads them. -/
structure Stats where
  totalURLs : Nat
  processed : Nat
  successCount : Nat
  errorCount : Nat
  totalDuration : Nat
  minDuration : Nat
  maxDuration : Nat
  startTime : Option Int
  warmUpResults : List Result
  cacheResults : List Result
  warmUpStart : Option Int
  warmUpEnd : Option Int
  verifyStart : Option Int
  verifyEnd : Option Int
deriving DecidableEq

/-- Go `stats.New`: zero counters, `minDuration` initialised to the
one-hour sentinel. -/
def newStats : Stats :=
  { totalURLs := 0
    processed := 0
    successCount := 0
    errorCount := 0
    totalDuration := 0
    minDuration := hourNs
    maxDuration := 0
    startTime := none
    warmUpResults := []
    cacheResults := []
    warmUpStart := none
    warmUpEnd := none
    verifyStart := none
    verifyEnd := none }

/-- Go `Stats.SetTotalURLs`: records the total and captures the start time. -/
def setTotalURLs (s : Stats) (total : Nat) (now : Int) : Stats :=
  { s with totalURLs := total, startTime := some now }

/-- Go `Stats.AddResult`.  The Go method performs `processed++`,
`totalDuration += d`, bumps exactly one of `successCount`/`errorCount`, and
updates `minDuration`/`maxDuration` by strict comparison; the field updates
are independent, so they are transcribed as one record update. -/
def addResult (s : Stats) (r : Result) : Stats :=
  { s with
    processed := s.processed + 1
    totalDuration := s.totalDuration + r.duration
    successCount := if r.success then s.successCount + 1 else s.successCount
    errorCount := if r.success then s.errorCount else s.errorCount + 1
    minDuration := if r.duration < s.minDuration then r.duration else s.minDuration
    maxDuration := if r.duration > s.maxDuration then r.duration else s.maxDuration }

/-- Go `Stats.AddWarmUpResult`: sets `warmUpStart` on first use, appends to
the warm-up list and increments `processed` (and nothing else). -/
def addWarmUpResult (s : Stats) (r : Result) (now : Int) : Stats :=
  let s := if s.warmUpStart = none then { s with warmUpStart := some now } else s
  { s with warmUpResults := s.warmUpResults ++ [r], processed := s.processed + 1 }

/-- Go `Stats.AddCacheResult`: sets `verifyStart` on first use and appends to
the verify list (and nothing else). -/
def addCacheResult (s : Stats) (r : Result) (now : Int) : Stats :=
  let s := if s.verifyStart = none then { s with verifyStart := some now } else s
  { s with cacheResults := s.cacheResults ++ [r] }

/-- Go `stats.FinalStats`. -/
structure FinalStats where
  totalProcessed : Nat
  totalSuccess : Nat
  totalErrors : Nat
  successRate : Rat
  averageDuration : Nat
  minDuration : Nat
  maxDuration : Nat
  totalDuration : Nat
deriving DecidableEq

/-- Go `Stats.GetFinalStats`.  `minDuration` is reported as `0` when nothing
was processed or the internal minimum still equals the one-hour sentinel. -/
def getFinalStats (s : Stats) : FinalStats :=
  { totalProcessed := s.processed
    totalSuccess := s.successCount
    totalErrors := s.errorCount
    successRate := if 0 < s.processed then (s.successCount : Rat) / (s.processed : Rat) * 100 else 0
    averageDuration := if 0 < s.processed then s.totalDuration / s.processed else 0
    minDuration := if s.processed = 0 ∨ s.minDuration = hourNs then 0 else s.minDuration
    maxDuration := s.maxDuration
    totalDuration := s.totalDuration }

/-- The snapshot fields of Go `stats.Progress` that are functions of the
counters alone.  The remaining fields (`ElapsedTime`, `EstimatedTimeLeft`,
`RequestsPerSecond`) are derived from the wall clock at snapshot time and are
outside the scope of the claims. -/
structure Progress where
  processed : Nat
  total : Nat
  percentage : Rat
  successRate : Rat
  averageDuration : Nat
deriving DecidableEq

/-- The counter-derived part of Go `Stats.GetProgress`. -/
def getProgress (s : Stats) : Progress :=
  { processed := s.processed
    total := s.totalURLs
    percentage :=
      if 0 < s.totalURLs then (s.processed : Rat) / (s.totalURLs : Rat) * 100 else 0
    successRate := if 0 < s.processed then (s.successCount : Rat) / (s.processed : Rat) * 100 else 0
    averageDuration := if 0 < s.processed then s.totalDuration / s.processed else 0 }

/-- The hit/miss counting fields of Go `stats.CacheStats`.  The
`WarmUpTime`/`VerifyTime` fields are wall-clock differences and are outside
the scope of the claims. -/
structure CacheStats where
  cacheHits : Nat
  cacheMisses : Nat
  cacheHitRate : Rat
deriving DecidableEq

/-- The loop body of Go `Stats.GetCacheStats`: non-empty cache-status values
equal to exactly "HIT" or "hit" count as hits, any other non-empty value as a
miss, empty values are skipped. -/
def countCacheStep (hm : Nat × Nat) (r : Result) : Nat × Nat :=
  if r.cacheStatus ≠ "" then
    if r.cacheStatus = "HIT" ∨ r.cacheStatus = "hit" then (hm.1 + 1, hm.2)
    else (hm.1, hm.2 + 1)
  else hm

/-- Go `Stats.GetCacheStats` (hit/miss/rate part): a fold of
`countCacheStep` over the verify-phase results only. -/
def getCacheStats (s : Stats) : CacheStats :=
  let hm := s.cacheResults.foldl countCacheStep (0, 0)
  { cacheHits := hm.1
    cacheMisses := hm.2
    cacheHitRate :=
      if 0 < hm.1 + hm.2 then (hm.1 : Rat) / ((hm.1 + hm.2 : Nat) : Rat) * 100 else 0 }

/-- Folding a whole list of standard results into the aggregator, one
`AddResult` call per element. -/
def applyResults (s : Stats) (rs : List Result) : Stats :=
  rs.foldl addResult s

/-- The running-minimum step performed by `AddResult` on `minDuration`. -/
def minStep (a : Nat) (r : Result) : Nat := if r.duration < a then r.duration else a

/-- The running-maximum step performed by `AddResult` on `maxDuration`. -/
def maxStep (a : Nat) (r : Result) : Nat := if r.duration > a then r.duration else a

/-- Cache-status classified as a hit by `GetCacheStats`. -/
def isCacheHit (r : Result) : Bool :=
  decide (r.cacheStatus = "HIT" ∨ r.cacheStatus = "hit")

/-- Cache-status classified as a miss by `GetCacheStats`. -/
def isCacheMiss (r : Result) : Bool :=
  decide (r.cacheStatus ≠ "" ∧ r.cacheStatus ≠ "HIT" ∧ r.cacheStatus ≠ "hit")

/-- Cache-status present (non-empty value). -/
def hasCacheStatus (r : Result) : Bool := decide (r.cacheStatus ≠ "")

/-- C9 witness: concrete evaluations.  With a single result of exactly one
hour the report shows zero; with results of 5ns and 7ns it shows 5ns. -/
def c9BigResult : Result :=
  { url := "https://example.com/big", success := true, statusCode := 200,
    errorText := "", duration := hourNs, cacheStatus := "" }

/-- Smallest result of the second C9 witness run. -/
def c9SmallResult : Result :=
  { url := "https://example.com/s5", success := true, statusCode := 200,
    errorText := "", duration := 5, cacheStatus := "" }

/-- Other result of the second C9 witness run. -/
def c9OtherResult : Result :=
  { url := "https://example.com/s7", success := false, statusCode := 500,
    errorText := "", duration := 7, cacheStatus := "" }

/-! ## Claim C3 -/

/-- A warm-up result used to exhibit the failure of
`processed = success + error` across the aggregator's recording operations. -/
def c3WarmResult : Result :=
  { url := "https://example.com/w", success := true, statusCode := 200,
    errorText := "", duration := 100, cacheStatus := "" }

/-- State after the single recording operation `AddWarmUpResult`. -/
def c3WarmState : Stats := addWarmUpResult newStats c3WarmResult 0

/-- First result of the C3 witness run. -/
def c3wResultA : Result :=
  { url := "https://example.com/a", success := true, statusCode := 200,
    errorText := "", duration := 10, cacheStatus := "" }

/-- Second result of the C3 witness run. -/
def c3wResultB : Result :=
  { url := "https://example.com/b", success := false, statusCode := 503,
    errorText := "", duration := 30, cacheStatus := "" }

/-- State of the C3 witness run. -/
def c3wState : Stats := applyResults (setTotalURLs newStats 4 0) [c3wResultA, c3wResultB]

/-- The five verify-phase results of the C5 boundary scenario: cache-status
values HIT, hit, MISS, miss and empty. -/
def c5Results : List Result :=
  [{ url := "https://example.com/1", success := true, statusCode := 200,
     errorText := "", duration := 10, cacheStatus := "HIT" },
   { url := "https://example.com/2", success := true, statusCode := 200,
     errorText := "", duration := 11, cacheStatus := "hit" },
   { url := "https://example.com/3", success := true, statusCode := 200,
     errorText := "", duration := 12, cacheStatus := "MISS" },
   { url := "https://example.com/4", success := true, statusCode := 200,
     errorText := "", duration := 13, cacheStatus := "miss" },
   { url := "https://example.com/5", success := true, statusCode := 200,
     errorText := "", duration := 14, cacheStatus := "" }]

/-- The aggregator state after recording the C5 scenario through
`AddCacheResult`. -/
def c5State : Stats := c5Results.foldl (fun s r => addCacheResult s r 0) newStats

/-! ## Backoff controller (`internal/backoff`, Go type `backoff.Manager`)

The Go `Manager` is mutex-guarded; `ShouldBackoff` is its only mutating
entry point and runs atomically, so the controller is modelled as a pure
state-transition function.  `cancelFunc` (a `context.CancelFunc`) is
modelled by the flag `hasCancelFunc` (whether `SetCancelFunc` was called
with a non-nil function) together with the ghost flag `cancelInvoked`
recording that `m.cancelFunc()` was called. -/

/-- The two errors `ShouldBackoff` can return. -/
inductive BackoffErr where
  /-- Go error "crawl cancelled due to too many 403 errors" (cancelled on a
  previous observation). -/
  | alreadyCancelled
  /-- Go error "crawl cancelled: %d 403 errors within %v window". -/
  | forbiddenThreshold (count : Nat)
deriving DecidableEq

/-- Go `backoff.Manager`: configuration and state fields, in source order.
Durations are nanosecond `Nat`s, timestamps are `Int` instants, the two Go
`float64` fields are exact rationals. -/
structure Manager where
  enabled : Bool
  initialDelay : Nat
  maxDelay : Nat
  multiplier : Rat
  responseTimeDegradationThreshold : Rat
  forbiddenErrorThreshold : Nat
  forbiddenErrorWindow : Int
  currentDelay : Nat
  backoffActive : Bool
  baselineResponseTime : Nat
  recentResponseTimes : List Nat
  responseTimeWindow : Nat
  forbiddenErrors : List Int
  cancelled : Bool
  hasCancelFunc : Bool
  cancelInvoked : Bool
deriving DecidableEq

/-- Result record of one `ShouldBackoff(statusCode, duration)` call: the
updated manager plus the Go return triple `(bool, time.Duration, error)`. -/
structure BackoffDecision where
  manager : Manager
  backoff : Bool
  delay : Nat
  err : Option BackoffErr
deriving DecidableEq

/-- Go `backoff.NewManager`: `currentDelay` starts at `initialDelay`,
`responseTimeWindow` is fixed at 20, the forbidden-error list starts empty. -/
def newManager (enabled : Bool) (initialDelay maxDelay : Nat)
    (multiplier responseTimeDegradationThreshold : Rat)
    (forbiddenErrorThreshold : Nat) (forbiddenErrorWindow : Int) : Manager :=
  { enabled := enabled
    initialDelay := initialDelay
    maxDelay := maxDelay
    multiplier := multiplier
    responseTimeDegradationThreshold := responseTimeDegradationThreshold
    forbiddenErrorThreshold := forbiddenErrorThreshold
    forbiddenErrorWindow := forbiddenErrorWindow
    currentDelay := initialDelay
    backoffActive := false
    baselineResponseTime := 0
    recentResponseTimes := []
    responseTimeWindow := 20
    forbiddenErrors := []
    cancelled := false
    hasCancelFunc := false
    cancelInvoked := false }

/-- Go `Manager.SetCancelFunc` with a non-nil cancel function. -/
def setCancelFunc (m : Manager) : Manager := { m with hasCancelFunc := true }

/-- Go `Manager.getCurrentAverageResponseTime`: 0 on an empty window, else
the integer-division average of the ring. -/
def getCurrentAverageResponseTime (m : Manager) : Nat :=
  if m.recentResponseTimes = [] then 0
  else m.recentResponseTimes.sum / m.recentResponseTimes.length

/-- Go `Manager.trackResponseTime`: append the duration, drop the oldest
entry when the ring exceeds its capacity, and establish the baseline (once)
when at least half the ring capacity is populated. -/
def trackResponseTime (m : Manager) (duration : Nat) : Manager :=
  let rts0 := m.recentResponseTimes ++ [duration]
  let rts := if rts0.length > m.responseTimeWindow then rts0.drop 1 else rts0
  let m1 := { m with recentResponseTimes := rts }
  if m1.baselineResponseTime = 0 ∧ m1.responseTimeWindow / 2 ≤ rts.length then
    { m1 with baselineResponseTime := getCurrentAverageResponseTime m1 }
  else m1

/-- Go `Manager.isResponseTimeDegraded`. -/
def isResponseTimeDegraded (m : Manager) : Bool :=
  if m.baselineResponseTime = 0
      ∨ m.recentResponseTimes.length < m.responseTimeWindow / 2 then false
  else
    decide (ratToDur ((m.baselineResponseTime : Rat)
        * (1 + m.responseTimeDegradationThreshold))
      < getCurrentAverageResponseTime m)

/-- Go `Manager.activateBackoff` (the manager after the call; the Go method
always returns `true`). -/
def activateBackoff (m : Manager) : Manager :=
  if m.backoffActive = false then
    { m with backoffActive := true, currentDelay := m.initialDelay }
  else
    let newDelay := ratToDur ((m.currentDelay : Rat) * m.multiplier)
    if newDelay > m.maxDelay then { m with currentDelay := m.maxDelay }
    else { m with currentDelay := newDelay }

/-- Go `Manager.resetBackoff`. -/
def resetBackoff (m : Manager) : Manager :=
  if m.backoffActive then
    { m with backoffActive := false, currentDelay := m.initialDelay }
  else m

/-- The loop of Go `Manager.cleanOldForbiddenErrors`: the index of the first
entry after the cutoff (`none` when there is none; the Go loop then leaves
`start = 0`). -/
def firstAfterIdx (cutoff : Int) : List Int → Option Nat
  | [] => none
  | t :: rest =>
    if cutoff < t then some 0
    else (firstAfterIdx cutoff rest).map (· + 1)

/-- The list surgery of Go `Manager.cleanOldForbiddenErrors`: `start` is the
loop result (0 when no entry is after the cutoff); if `start = 0` the list is
cleared only when non-empty with its last entry before the cutoff, otherwise
the first `start` entries are dropped. -/
def goCleanForbidden (errs : List Int) (cutoff : Int) : List Int :=
  let start := (firstAfterIdx cutoff errs).getD 0
  if start = 0 then
    match errs.getLast? with
    | some l => if l < cutoff then [] else errs
    | none => errs
  else errs.drop start

/-- Go `Manager.cleanOldForbiddenErrors(now)`: cutoff is
`now.Add(-m.forbiddenErrorWindow)`. -/
def cleanOldForbiddenErrors (m : Manager) (now : Int) : Manager :=
  { m with forbiddenErrors :=
      goCleanForbidden m.forbiddenErrors (now - m.forbiddenErrorWindow) }

/-- The tail of Go `Manager.ShouldBackoff` after the cancellation and 403
checks: the 5xx check, response-time tracking, degradation check, and
recovery reset. -/
def shouldBackoffRest (m : Manager) (statusCode : Nat) (duration : Nat) :
    BackoffDecision :=
  if 500 ≤ statusCode ∧ statusCode < 600 then
    let m1 := activateBackoff m
    ⟨m1, true, m1.currentDelay, none⟩
  else
    let m1 := trackResponseTime m duration
    if isResponseTimeDegraded m1 then
      let m2 := activateBackoff m1
      ⟨m2, true, m2.currentDelay, none⟩
    else
      let m2 :=
        if 200 ≤ statusCode ∧ statusCode < 400 ∧ m1.backoffActive then resetBackoff m1
        else m1
      ⟨m2, false, 0, none⟩

/-- Go `Manager.ShouldBackoff(statusCode, duration)` observed at instant
`now` (the Go method reads `time.Now()` in its 403 branch). -/
def shouldBackoff (m : Manager) (statusCode : Nat) (duration : Nat) (now : Int) :
    BackoffDecision :=
  if m.enabled = false then ⟨m, false, 0, none⟩
  else if m.cancelled then ⟨m, false, 0, some .alreadyCancelled⟩
  else if statusCode = 403 then
    let m1 := { m with forbiddenErrors := m.forbiddenErrors ++ [now] }
    let m2 := cleanOldForbiddenErrors m1 now
    if m2.forbiddenErrors.length ≥ m2.forbiddenErrorThreshold then
      let m3 := { m2 with cancelled := true,
                          cancelInvoked := m2.cancelInvoked || m2.hasCancelFunc }
      ⟨m3, false, 0, some (.forbiddenThreshold m2.forbiddenErrors.length)⟩
    else shouldBackoffRest m2 statusCode duration
  else shouldBackoffRest m statusCode duration

/-- One observation fed to the controller. -/
structure Observation where
  statusCode : Nat
  duration : Nat
  time : Int
deriving DecidableEq

/-- The manager state after a sequence of observations. -/
def runManager (m : Manager) (obs : List Observation) : Manager :=
  obs.foldl (fun m o => (shouldBackoff m o.statusCode o.duration o.time).manager) m

/-- The decisions returned along a sequence of observations. -/
def runDecisions (m : Manager) : List Observation → List BackoffDecision
  | [] => []
  | o :: rest =>
    let d := shouldBackoff m o.statusCode o.duration o.time
    d :: runDecisions d.manager rest

/-- Old window entry for the C7 witness run. -/
def c7OldEntry : Int := -100

/-- Manager state for the C7 witness: enabled controller with one stored
timestamp 100ns before the observation, window 10ns. -/
def c7Manager : Manager :=
  { newManager true 5 50 2 (1/2) 3 10 with forbiddenErrors := [c7OldEntry] }

/-- Timestamps of the C2 witness runs. -/
def c2Times2 : List Int := [1, 2]

/-- Timestamps of the C2 threshold-reaching witness run. -/
def c2Times3 : List Int := [1, 2, 3]

/-- C2 witness manager: enabled, threshold 3, window 10ns, cancel function
registered. -/
def c2Manager : Manager := setCancelFunc (newManager true 5 50 2 (1/2) 3 10)

/-- Freshly constructed controller of the C1 runs: enabled, initial delay
100ns, max delay 400ns, multiplier 2, degradation threshold 0.5,
forbidden threshold 5, window 1000ns. -/
def c1CexBase : Manager := newManager true 100 400 2 (1/2) 5 1000

/-- Nine successful 50ns observations followed by one server error: after
them the ring holds nine samples, the baseline is still zero, and backoff is
active. -/
def c1CexObs : List Observation :=
  List.replicate 9 ⟨200, 50, 0⟩ ++ [⟨500, 60, 0⟩]

/-- The controller state reached by `c1CexObs`. -/
def c1CexManager : Manager := runManager c1CexBase c1CexObs

/-- Fresh controller of the C1 witness. -/
def c1wManager : Manager := newManager true 100 400 2 (1/2) 5 1000

/-- Fresh controller of the C6 runs. -/
def c6Manager : Manager := newManager true 100 400 2 (1/2) 5 1000

/-! ## Sitemap parser (`internal/parser`)

`Parser.parseXML` attempts `xml.Unmarshal` into the `Sitemap` struct (root
element `<sitemapindex>`), then into `URLSet` (root `<urlset>`), then falls
back to plain text.  The two unmarshal attempts are abstracted: a
`SitemapBody` carries, next to the raw body text, the outcome of each
attempt — `some locs` when the body is well-formed XML with the matching
root element, with one entry per `<sitemap>`/`<url>` child (the child's
`<loc>` text), and `none` when unmarshalling fails (mismatched root or
malformed XML).  The plain-text stage is embedded directly; text is
represented as its character list (`List Char`), Go strings being byte
slices. -/

/-- Go `strings.Split(text, "\n")` on a character list: split at every
newline, keeping empty fields. -/
def splitLines : List Char → List (List Char)
  | [] => [[]]
  | c :: cs =>
    match splitLines cs with
    | [] => [[c]]
    | line :: rest => if c = '\n' then [] :: line :: rest else (c :: line) :: rest

/-- Go `strings.TrimSpace`: strip leading and trailing whitespace. -/
def trimChars (l : List Char) : List Char :=
  ((l.dropWhile Char.isWhitespace).reverse.dropWhile Char.isWhitespace).reverse

/-- The line filter of Go `parseXML`'s plain-text stage:
`line != "" && (strings.HasPrefix(line, "http://") || strings.HasPrefix(line, "https://"))`. -/
def isURLLine (line : List Char) : Bool :=
  decide (line ≠ []) &&
    (List.isPrefixOf "http://".toList line || List.isPrefixOf "https://".toList line)

/-- A fetched sitemap body together with the outcomes of the two
`xml.Unmarshal` attempts (see the note above). -/
structure SitemapBody where
  text : List Char
  indexUnmarshal : Option (List (List Char))
  urlsetUnmarshal : Option (List (List Char))
deriving DecidableEq

/-- Go `parseXML`'s plain-text stage: split on newlines, trim whitespace,
keep the non-empty lines beginning with "http://" or "https://". -/
def parsePlainText (text : List Char) : List (List Char) :=
  ((splitLines text).map trimChars).filter isURLLine

/-- The one error `parseXML` can return:
"unable to parse sitemap format". -/
inductive ParseFailure where
  | formatFailure
deriving DecidableEq

/-- Go `parseXML`, plain-text stage (runs when both XML stages yielded
nothing). -/
def parseXMLText (body : SitemapBody) : Except ParseFailure (List (List Char)) :=
  let urls := parsePlainText body.text
  if 0 < urls.length then .ok urls else .error .formatFailure

/-- Go `parseXML`, URL-set stage. -/
def parseXMLUrlset (body : SitemapBody) : Except ParseFailure (List (List Char)) :=
  match body.urlsetUnmarshal with
  | some locs => if 0 < locs.length then .ok locs else parseXMLText body
  | none => parseXMLText body

/-- Go `parseXML`: sitemap-index stage first, then URL set, then plain
text; each stage is accepted only when it yields a non-empty list. -/
def parseXML (body : SitemapBody) : Except ParseFailure (List (List Char)) :=
  match body.indexUnmarshal with
  | some locs => if 0 < locs.length then .ok locs else parseXMLUrlset body
  | none => parseXMLUrlset body

/-- The number of URL lines of a plain-text body: trimmed lines that are
non-empty and begin with "http://" or "https://". -/
def urlLineCount (text : List Char) : Nat :=
  ((splitLines text).map trimChars).countP isURLLine

/-- A plain-text body for the C4 witness: two URL lines, one blank line, one
non-URL line. -/
def c4TextBody : SitemapBody :=
  { text := "https://a.example/x\n  \nhttp://b.example/y\nnot-a-url".toList
    indexUnmarshal := none
    urlsetUnmarshal := none }

/-- A sitemap-index body for the C4 witness: two `<sitemap><loc>` children. -/
def c4IndexBody : SitemapBody :=
  { text := "<sitemapindex>...</sitemapindex>".toList
    indexUnmarshal := some ["https://example.com/s1.xml".toList,
      "https://example.com/s2.xml".toList]
    urlsetUnmarshal := none }

/-! ## Crawl orchestration: rate-limiter construction (`internal/crawler`)

`runStandardCrawl`, `warmUpCache` and `verifyCache` share one body shape:
construct a limiter with `rate.NewLimiter(rate.Limit(cfg.RequestRate),
cfg.RequestRate)` and spawn `cfg.MaxWorkers` workers, passing every worker
that same limiter.  The embedding records, per phase, the constructed
limiter (identified by its allocation order within the run — distinct
`rate.NewLimiter` calls yield distinct instances) and the limiter id handed
to each spawned worker. -/

/-- One `rate.NewLimiter` result: allocation id within the run, `rate.Limit`
argument and burst argument. -/
structure LimiterSpec where
  allocId : Nat
  rateLimit : Nat
  burst : Nat
deriving DecidableEq

/-- The limiter wiring of one phase: the limiter it constructed and the
limiter id passed to each of its workers. -/
structure PhasePlan where
  limiter : LimiterSpec
  workerLimiters : List Nat
deriving DecidableEq

/-- The configuration fields the limiter wiring depends on. -/
structure CrawlerConfig where
  requestRate : Nat
  maxWorkers : Nat
deriving DecidableEq

/-- The shared phase body: one `rate.NewLimiter(rate.Limit(R), R)` call,
then `MaxWorkers` workers all given that limiter. -/
def runPhase (nextId : Nat) (cfg : CrawlerConfig) : PhasePlan × Nat :=
  let lim : LimiterSpec := ⟨nextId, cfg.requestRate, cfg.requestRate⟩
  (⟨lim, List.replicate cfg.maxWorkers lim.allocId⟩, nextId + 1)

/-- Go `runStandardCrawl`: a single phase. -/
def runStandardCrawlPlan (cfg : CrawlerConfig) : PhasePlan := (runPhase 0 cfg).1

/-- Go `runWithCacheVerification`: `warmUpCache` then `verifyCache`, each
phase constructing its own limiter. -/
def runWithCacheVerificationPlan (cfg : CrawlerConfig) : PhasePlan × PhasePlan :=
  let warm := runPhase 0 cfg
  let verify := runPhase warm.2 cfg
  (warm.1, verify.1)

/-! ## Claim C8 -/

/-- Default-configuration instance of the C8 counterexample. -/
def c8Config : CrawlerConfig := { requestRate := 100, maxWorkers := 10 }


/-! ## Theorems -/

lemma addResult_processed (s : Stats) (r : Result) :
    (addResult s r).processed = s.processed + 1 := rfl

lemma addResult_totalDuration (s : Stats) (r : Result) :
    (addResult s r).totalDuration = s.totalDuration + r.duration := rfl

lemma addResult_counts (s : Stats) (r : Result) :
    (addResult s r).successCount + (addResult s r).errorCount
      = s.successCount + s.errorCount + 1 := by
  unfold addResult
  cases h : r.success <;> simp [h] <;> omega

lemma addResult_minDuration (s : Stats) (r : Result) :
    (addResult s r).minDuration = minStep s.minDuration r := rfl

lemma addResult_maxDuration (s : Stats) (r : Result) :
    (addResult s r).maxDuration = maxStep s.maxDuration r := rfl

lemma addResult_totalURLs (s : Stats) (r : Result) :
    (addResult s r).totalURLs = s.totalURLs := rfl

lemma addResult_cacheResults (s : Stats) (r : Result) :
    (addResult s r).cacheResults = s.cacheResults := rfl

lemma applyResults_processed (s : Stats) (rs : List Result) :
    (applyResults s rs).processed = s.processed + rs.length := by
  induction rs generalizing s with
  | nil => simp [applyResults]
  | cons r rs ih =>
    simp only [applyResults, List.foldl_cons] at *
    rw [ih, addResult_processed, List.length_cons]
    omega

lemma applyResults_counts (s : Stats) (rs : List Result) :
    (applyResults s rs).successCount + (applyResults s rs).errorCount
      = s.successCount + s.errorCount + rs.length := by
  induction rs generalizing s with
  | nil => simp [applyResults]
  | cons r rs ih =>
    simp only [applyResults, List.foldl_cons] at *
    rw [ih, addResult_counts, List.length_cons]
    omega

lemma applyResults_totalDuration (s : Stats) (rs : List Result) :
    (applyResults s rs).totalDuration = s.totalDuration + (rs.map Result.duration).sum := by
  induction rs generalizing s with
  | nil => simp [applyResults]
  | cons r rs ih =>
    simp only [applyResults, List.foldl_cons] at *
    rw [ih, addResult_totalDuration, List.map_cons, List.sum_cons]
    omega

lemma applyResults_minDuration (s : Stats) (rs : List Result) :
    (applyResults s rs).minDuration = rs.foldl minStep s.minDuration := by
  induction rs generalizing s with
  | nil => simp [applyResults]
  | cons r rs ih =>
    simp only [applyResults, List.foldl_cons] at *
    rw [ih, addResult_minDuration]

lemma applyResults_maxDuration (s : Stats) (rs : List Result) :
    (applyResults s rs).maxDuration = rs.foldl maxStep s.maxDuration := by
  induction rs generalizing s with
  | nil => simp [applyResults]
  | cons r rs ih =>
    simp only [applyResults, List.foldl_cons] at *
    rw [ih, addResult_maxDuration]

lemma applyResults_totalURLs (s : Stats) (rs : List Result) :
    (applyResults s rs).totalURLs = s.totalURLs := by
  induction rs generalizing s with
  | nil => simp [applyResults]
  | cons r rs ih =>
    simp only [applyResults, List.foldl_cons] at *
    rw [ih, addResult_totalURLs]

lemma applyResults_cacheResults (s : Stats) (rs : List Result) :
    (applyResults s rs).cacheResults = s.cacheResults := by
  induction rs generalizing s with
  | nil => simp [applyResults]
  | cons r rs ih =>
    simp only [applyResults, List.foldl_cons] at *
    rw [ih, addResult_cacheResults]

lemma minStep_le_init (a : Nat) (r : Result) : minStep a r ≤ a := by
  dsimp only [minStep]; split <;> omega

lemma minStep_le_duration (a : Nat) (r : Result) : minStep a r ≤ r.duration := by
  dsimp only [minStep]; split <;> omega

lemma foldl_minStep_le_init (a : Nat) (rs : List Result) :
    rs.foldl minStep a ≤ a := by
  induction rs generalizing a with
  | nil => simp
  | cons r rs ih =>
    simp only [List.foldl_cons]
    exact le_trans (ih _) (minStep_le_init a r)

lemma foldl_minStep_le_mem (a : Nat) (rs : List Result) (r : Result) (h : r ∈ rs) :
    rs.foldl minStep a ≤ r.duration := by
  induction rs generalizing a with
  | nil => cases h
  | cons x rs ih =>
    simp only [List.foldl_cons]
    rcases List.mem_cons.1 h with h1 | h1
    · subst h1
      exact le_trans (foldl_minStep_le_init _ _) (minStep_le_duration a r)
    · exact ih _ h1

lemma foldl_minStep_eq_init_or_mem (a : Nat) (rs : List Result) :
    rs.foldl minStep a = a ∨ ∃ r ∈ rs, rs.foldl minStep a = r.duration := by
  induction rs generalizing a with
  | nil => simp
  | cons x rs ih =>
    simp only [List.foldl_cons]
    rcases ih (minStep a x) with h | ⟨r, hr, h⟩
    · by_cases hx : x.duration < a
      · right
        refine ⟨x, by simp, ?_⟩
        rw [h]
        dsimp only [minStep]
        rw [if_pos hx]
      · left
        rw [h]
        dsimp only [minStep]
        rw [if_neg hx]
    · right
      exact ⟨r, by simp [hr], h⟩

lemma init_le_maxStep (a : Nat) (r : Result) : a ≤ maxStep a r := by
  dsimp only [maxStep]; split <;> omega

lemma duration_le_maxStep (a : Nat) (r : Result) : r.duration ≤ maxStep a r := by
  dsimp only [maxStep]; split <;> omega

lemma le_foldl_maxStep_init (a : Nat) (rs : List Result) :
    a ≤ rs.foldl maxStep a := by
  induction rs generalizing a with
  | nil => simp
  | cons r rs ih =>
    simp only [List.foldl_cons]
    exact le_trans (init_le_maxStep a r) (ih _)

lemma mem_le_foldl_maxStep (a : Nat) (rs : List Result) (r : Result) (h : r ∈ rs) :
    r.duration ≤ rs.foldl maxStep a := by
  induction rs generalizing a with
  | nil => cases h
  | cons x rs ih =>
    simp only [List.foldl_cons]
    rcases List.mem_cons.1 h with h1 | h1
    · subst h1
      exact le_trans (duration_le_maxStep a r) (le_foldl_maxStep_init _ _)
    · exact ih _ h1

lemma length_mul_le_sum_map (rs : List Result) (b : Nat)
    (h : ∀ r ∈ rs, b ≤ r.duration) :
    rs.length * b ≤ (rs.map Result.duration).sum := by
  induction rs with
  | nil => simp
  | cons r rs ih =>
    simp only [List.map_cons, List.sum_cons, List.length_cons]
    have h1 : b ≤ r.duration := h r (by simp)
    have h2 : rs.length * b ≤ (rs.map Result.duration).sum :=
      ih fun x hx => h x (by simp [hx])
    calc (rs.length + 1) * b = rs.length * b + b := by rw [Nat.succ_mul]
      _ ≤ (rs.map Result.duration).sum + r.duration := Nat.add_le_add h2 h1
      _ = r.duration + (rs.map Result.duration).sum := Nat.add_comm _ _

lemma sum_map_le_length_mul (rs : List Result) (b : Nat)
    (h : ∀ r ∈ rs, r.duration ≤ b) :
    (rs.map Result.duration).sum ≤ rs.length * b := by
  induction rs with
  | nil => simp
  | cons r rs ih =>
    simp only [List.map_cons, List.sum_cons, List.length_cons]
    have h1 : r.duration ≤ b := h r (by simp)
    have h2 : (rs.map Result.duration).sum ≤ rs.length * b :=
      ih fun x hx => h x (by simp [hx])
    calc r.duration + (rs.map Result.duration).sum ≤ b + rs.length * b :=
        Nat.add_le_add h1 h2
      _ = (rs.length + 1) * b := by rw [Nat.succ_mul, Nat.add_comm]

lemma getFinalStats_minDuration (s : Stats) :
    (getFinalStats s).minDuration
      = if s.processed = 0 ∨ s.minDuration = hourNs then 0 else s.minDuration := rfl

lemma getFinalStats_averageDuration (s : Stats) :
    (getFinalStats s).averageDuration
      = if 0 < s.processed then s.totalDuration / s.processed else 0 := rfl

lemma getFinalStats_maxDuration (s : Stats) :
    (getFinalStats s).maxDuration = s.maxDuration := rfl

lemma getProgress_percentage (s : Stats) :
    (getProgress s).percentage
      = if 0 < s.totalURLs then (s.processed : Rat) / (s.totalURLs : Rat) * 100 else 0 := rfl

lemma foldl_countCacheStep (rs : List Result) (h m : Nat) :
    rs.foldl countCacheStep (h, m)
      = (h + rs.countP isCacheHit, m + rs.countP isCacheMiss) := by
  induction rs generalizing h m with
  | nil => simp
  | cons r rs ih =>
    simp only [List.foldl_cons, List.countP_cons]
    by_cases h1 : r.cacheStatus = ""
    · have hh : isCacheHit r = false := by
        simp [isCacheHit, h1]
      have hm2 : isCacheMiss r = false := by
        simp [isCacheMiss, h1]
      have hstep : countCacheStep (h, m) r = (h, m) := by
        simp [countCacheStep, h1]
      rw [hstep, ih, hh, hm2]
      simp
    · by_cases h2 : r.cacheStatus = "HIT" ∨ r.cacheStatus = "hit"
      · have hh : isCacheHit r = true := by
          simp [isCacheHit, h2]
        have hm2 : isCacheMiss r = false := by
          rcases h2 with h2 | h2 <;> simp [isCacheMiss, h2]
        have hstep : countCacheStep (h, m) r = (h + 1, m) := by
          simp [countCacheStep, h1, h2]
        rw [hstep, ih, hh, hm2]
        simp
        omega
      · have hh : isCacheHit r = false := by
          simp only [isCacheHit, decide_eq_false_iff_not]
          exact h2
        have hm2 : isCacheMiss r = true := by
          simp only [isCacheMiss, decide_eq_true_eq]
          push_neg at h2
          exact ⟨h1, h2.1, h2.2⟩
        have hstep : countCacheStep (h, m) r = (h, m + 1) := by
          simp [countCacheStep, h1, h2]
        rw [hstep, ih, hh, hm2]
        simp
        omega

lemma countP_hit_add_countP_miss (rs : List Result) :
    rs.countP isCacheHit + rs.countP isCacheMiss = rs.countP hasCacheStatus := by
  induction rs with
  | nil => simp
  | cons r rs ih =>
    simp only [List.countP_cons]
    have hone : (if isCacheHit r then 1 else 0) + (if isCacheMiss r then 1 else 0)
        = (if hasCacheStatus r then (1 : Nat) else 0) := by
      by_cases h1 : r.cacheStatus = ""
      · simp [isCacheHit, isCacheMiss, hasCacheStatus, h1]
      · by_cases h2 : r.cacheStatus = "HIT" ∨ r.cacheStatus = "hit"
        · rcases h2 with h2 | h2 <;>
            simp [isCacheHit, isCacheMiss, hasCacheStatus, h2]
        · push_neg at h2
          simp [isCacheHit, isCacheMiss, hasCacheStatus, h1, h2.1, h2.2]
    omega

/-! ## Claim C10 -/

/-- C10: recording a verify-phase result (`AddCacheResult`) appends it to the
verify list and sets the verify start timestamp if unset, leaving the
processed/success/error counters and the total/min/max durations unchanged;
recording a warm-up result (`AddWarmUpResult`) increments only the processed
counter and appends to the warm-up list, leaving the success and error
counters and all duration aggregates unchanged. -/
theorem C10_phase_recording_frame (s : Stats) (r : Result) (now : Int) :
    ((addCacheResult s r now).cacheResults = s.cacheResults ++ [r]
      ∧ (addCacheResult s r now).verifyStart
          = (if s.verifyStart = none then some now else s.verifyStart)
      ∧ (addCacheResult s r now).processed = s.processed
      ∧ (addCacheResult s r now).successCount = s.successCount
      ∧ (addCacheResult s r now).errorCount = s.errorCount
      ∧ (addCacheResult s r now).totalDuration = s.totalDuration
      ∧ (addCacheResult s r now).minDuration = s.minDuration
      ∧ (addCacheResult s r now).maxDuration = s.maxDuration)
    ∧ ((addWarmUpResult s r now).processed = s.processed + 1
      ∧ (addWarmUpResult s r now).warmUpResults = s.warmUpResults ++ [r]
      ∧ (addWarmUpResult s r now).cacheResults = s.cacheResults
      ∧ (addWarmUpResult s r now).successCount = s.successCount
      ∧ (addWarmUpResult s r now).errorCount = s.errorCount
      ∧ (addWarmUpResult s r now).totalDuration = s.totalDuration
      ∧ (addWarmUpResult s r now).minDuration = s.minDuration
      ∧ (addWarmUpResult s r now).maxDuration = s.maxDuration) := by
  refine ⟨?_, ?_⟩
  · unfold addCacheResult
    by_cases hv : s.verifyStart = none <;> simp [hv]
  · unfold addWarmUpResult
    by_cases hw : s.warmUpStart = none <;> simp [hw]

/-! ## Claim C9 -/

/-- C9: the aggregator reports `MinDuration = 0` whenever no result recorded
through `AddResult` has a duration strictly below the one-hour sentinel, even
when `processed > 0`; otherwise it reports the least recorded duration. -/
theorem C9_min_duration_sentinel (rs : List Result) :
    ((∀ r ∈ rs, hourNs ≤ r.duration) →
      (getFinalStats (applyResults newStats rs)).minDuration = 0)
    ∧ (∀ r ∈ rs, r.duration < hourNs → (∀ r2 ∈ rs, r.duration ≤ r2.duration) →
      (getFinalStats (applyResults newStats rs)).minDuration = r.duration) := by
  have hfold : (applyResults newStats rs).minDuration = rs.foldl minStep hourNs :=
    applyResults_minDuration newStats rs
  have hproc : (applyResults newStats rs).processed = rs.length := by
    rw [applyResults_processed]
    simp [newStats]
  constructor
  · intro hall
    have hhour : rs.foldl minStep hourNs = hourNs := by
      rcases foldl_minStep_eq_init_or_mem hourNs rs with h | ⟨r, hr, h⟩
      · exact h
      · have h1 := foldl_minStep_le_init hourNs rs
        have h2 := hall r hr
        omega
    rw [getFinalStats_minDuration, if_pos (Or.inr (by rw [hfold, hhour]))]
  · intro r hr hlt hminimal
    have hle : rs.foldl minStep hourNs ≤ r.duration := foldl_minStep_le_mem hourNs rs r hr
    have heq : rs.foldl minStep hourNs = r.duration := by
      rcases foldl_minStep_eq_init_or_mem hourNs rs with h | ⟨r2, hr2, h⟩
      · omega
      · have := hminimal r2 hr2
        omega
    have hlen : 0 < rs.length := List.length_pos.2 (List.ne_nil_of_mem hr)
    rw [getFinalStats_minDuration, if_neg, hfold, heq]
    rw [hproc, hfold, heq]
    push_neg
    exact ⟨by omega, by omega⟩

/-- C9 witness. -/
theorem C9_min_duration_sentinel_witness :
    (getFinalStats (applyResults newStats [c9BigResult])).minDuration = 0
    ∧ (getFinalStats (applyResults newStats [c9SmallResult, c9OtherResult])).minDuration = 5 :=
  ⟨(C9_min_duration_sentinel [c9BigResult]).1 (by decide),
   (C9_min_duration_sentinel [c9SmallResult, c9OtherResult]).2 c9SmallResult
      (by decide) (by decide) (by decide)⟩

/-- C3 counterexample: a single warm-up recording (`AddWarmUpResult`, one of
the aggregator's recording operations) yields `processed = 1` while
`success + error = 0`, so `processed = success + error` does not hold for
every sequence of recorded results. -/
theorem C3_counterexample :
    c3WarmState.processed = 1
    ∧ c3WarmState.successCount = 0
    ∧ c3WarmState.errorCount = 0 := by
  refine ⟨by decide, by decide, by decide⟩

/-- C3 as amended: for every sequence of results recorded through the
standard recording operation `AddResult` (with the total set to at least the
number of results, as the crawler does), `processed = success + error` holds,
the reported min/average/max durations are ordered when `processed > 0`, and
the progress percentage lies in `[0, 100]`.  (Warm-up recordings increment
`processed` without classifying success, and are counted against the same
total, so the identity holds only for the standard operation.) -/
theorem C3_amended_aggregator_invariants (total : Nat) (now : Int)
    (rs : List Result) (s : Stats)
    (hs : s = applyResults (setTotalURLs newStats total now) rs)
    (hlen : rs.length ≤ total) :
    s.processed = s.successCount + s.errorCount
    ∧ (0 < s.processed →
        (getFinalStats s).minDuration ≤ (getFinalStats s).averageDuration
        ∧ (getFinalStats s).averageDuration ≤ (getFinalStats s).maxDuration)
    ∧ 0 ≤ (getProgress s).percentage
    ∧ (getProgress s).percentage ≤ 100 := by
  subst hs
  have hbase : (setTotalURLs newStats total now).processed = 0 := rfl
  have hproc : (applyResults (setTotalURLs newStats total now) rs).processed = rs.length := by
    rw [applyResults_processed, hbase]
    omega
  have hcnt : (applyResults (setTotalURLs newStats total now) rs).successCount
      + (applyResults (setTotalURLs newStats total now) rs).errorCount = rs.length := by
    rw [applyResults_counts]
    simp [setTotalURLs, newStats]
  have htot : (applyResults (setTotalURLs newStats total now) rs).totalDuration
      = (rs.map Result.duration).sum := by
    rw [applyResults_totalDuration]
    simp [setTotalURLs, newStats]
  have hurls : (applyResults (setTotalURLs newStats total now) rs).totalURLs = total := by
    rw [applyResults_totalURLs]
    rfl
  refine ⟨by omega, ?_, ?_, ?_⟩
  · intro hpos
    have hn : 0 < rs.length := by omega
    have hminf := applyResults_minDuration (setTotalURLs newStats total now) rs
    have hmaxf := applyResults_maxDuration (setTotalURLs newStats total now) rs
    have hbasemin : (setTotalURLs newStats total now).minDuration = hourNs := rfl
    have hbasemax : (setTotalURLs newStats total now).maxDuration = 0 := rfl
    rw [hbasemin] at hminf
    rw [hbasemax] at hmaxf
    constructor
    · rw [getFinalStats_minDuration, getFinalStats_averageDuration, if_pos hpos]
      by_cases hmc : (applyResults (setTotalURLs newStats total now) rs).minDuration = hourNs
      · rw [if_pos (Or.inr hmc)]
        exact Nat.zero_le _
      · rw [if_neg (by push_neg; exact ⟨by omega, hmc⟩)]
        rw [hminf, htot, hproc]
        have hminb : ∀ r ∈ rs, rs.foldl minStep hourNs ≤ r.duration :=
          fun r hr => foldl_minStep_le_mem hourNs rs r hr
        have hsum : rs.length * rs.foldl minStep hourNs ≤ (rs.map Result.duration).sum :=
          length_mul_le_sum_map rs _ hminb
        rw [Nat.le_div_iff_mul_le hn]
        calc rs.foldl minStep hourNs * rs.length
            = rs.length * rs.foldl minStep hourNs := Nat.mul_comm _ _
          _ ≤ (rs.map Result.duration).sum := hsum
    · rw [getFinalStats_averageDuration, getFinalStats_maxDuration, if_pos hpos]
      rw [htot, hproc, hmaxf]
      have hmaxb : ∀ r ∈ rs, r.duration ≤ rs.foldl maxStep 0 :=
        fun r hr => mem_le_foldl_maxStep 0 rs r hr
      have hsum : (rs.map Result.duration).sum ≤ rs.length * rs.foldl maxStep 0 :=
        sum_map_le_length_mul rs _ hmaxb
      calc (rs.map Result.duration).sum / rs.length
          ≤ rs.length * rs.foldl maxStep 0 / rs.length := Nat.div_le_div_right hsum
        _ = rs.foldl maxStep 0 := Nat.mul_div_cancel_left _ hn
  · rw [getProgress_percentage]
    split
    · positivity
    · norm_num
  · rw [getProgress_percentage, hurls, hproc]
    split
    · rename_i ht
      have h1 : (rs.length : Rat) ≤ (total : Rat) := by exact_mod_cast hlen
      have h2 : (0 : Rat) < (total : Rat) := by exact_mod_cast ht
      calc (rs.length : Rat) / (total : Rat) * 100
          ≤ 1 * 100 := by
            apply mul_le_mul_of_nonneg_right _ (by norm_num)
            exact div_le_one_of_le₀ h1 (le_of_lt h2)
        _ = 100 := by norm_num
    · norm_num

/-- C3 witness. -/
theorem C3_amended_aggregator_invariants_witness :
    c3wState.processed = c3wState.successCount + c3wState.errorCount
    ∧ (0 < c3wState.processed →
        (getFinalStats c3wState).minDuration ≤ (getFinalStats c3wState).averageDuration
        ∧ (getFinalStats c3wState).averageDuration ≤ (getFinalStats c3wState).maxDuration)
    ∧ 0 ≤ (getProgress c3wState).percentage
    ∧ (getProgress c3wState).percentage ≤ 100 :=
  C3_amended_aggregator_invariants 4 0 [c3wResultA, c3wResultB] c3wState rfl (by decide)

/-! ## Claim C5 -/

lemma addWarmUpResult_cacheResults (s : Stats) (r : Result) (now : Int) :
    (addWarmUpResult s r now).cacheResults = s.cacheResults := by
  unfold addWarmUpResult
  by_cases hw : s.warmUpStart = none <;> simp [hw]

lemma getCacheStats_congr (s1 s2 : Stats) (h : s1.cacheResults = s2.cacheResults) :
    getCacheStats s1 = getCacheStats s2 := by
  unfold getCacheStats
  rw [h]

/-- C5: the cache report is computed over the verify-phase results only
(standard and warm-up recordings leave it unchanged); a result counts as a
hit iff its cache-status is exactly "HIT" or "hit", any other non-empty value
counts as a miss, empty values are ignored, and the hit rate is
`hits / (hits + misses) × 100` (`0` when there are no non-empty values); on
the HIT/hit/MISS/miss/empty scenario it reports 2 hits, 2 misses, 50.0%. -/
theorem C5_cache_report :
    (∀ s : Stats,
      (getCacheStats s).cacheHits = s.cacheResults.countP isCacheHit
      ∧ (getCacheStats s).cacheMisses = s.cacheResults.countP isCacheMiss
      ∧ (getCacheStats s).cacheHits + (getCacheStats s).cacheMisses
          = s.cacheResults.countP hasCacheStatus
      ∧ (getCacheStats s).cacheHitRate
          = (if 0 < (getCacheStats s).cacheHits + (getCacheStats s).cacheMisses
             then ((getCacheStats s).cacheHits : Rat)
                / (((getCacheStats s).cacheHits + (getCacheStats s).cacheMisses : Nat) : Rat)
                * 100
             else 0)
      ∧ (∀ r : Result, ∀ now : Int,
          getCacheStats (addResult s r) = getCacheStats s
          ∧ getCacheStats (addWarmUpResult s r now) = getCacheStats s))
    ∧ getCacheStats c5State = { cacheHits := 2, cacheMisses := 2, cacheHitRate := 50 } := by
  constructor
  · intro s
    have hfold := foldl_countCacheStep s.cacheResults 0 0
    have hhits : (getCacheStats s).cacheHits = s.cacheResults.countP isCacheHit := by
      show (s.cacheResults.foldl countCacheStep (0, 0)).1 = _
      rw [hfold]
      simp
    have hmisses : (getCacheStats s).cacheMisses = s.cacheResults.countP isCacheMiss := by
      show (s.cacheResults.foldl countCacheStep (0, 0)).2 = _
      rw [hfold]
      simp
    refine ⟨hhits, hmisses, ?_, rfl, ?_⟩
    · rw [hhits, hmisses]
      exact countP_hit_add_countP_miss s.cacheResults
    · intro r now
      exact ⟨getCacheStats_congr _ _ (addResult_cacheResults s r),
        getCacheStats_congr _ _ (addWarmUpResult_cacheResults s r now)⟩
  · have h1 : c5State.cacheResults.foldl countCacheStep (0, 0) = (2, 2) := by decide
    simp only [getCacheStats, h1, CacheStats.mk.injEq]
    norm_num

lemma mem_of_getLast?_eq (l : List Int) (y : Int) (h : l.getLast? = some y) :
    y ∈ l := by
  have hmem : y ∈ l.getLast? := by simp [Option.mem_def, h]
  rcases List.mem_getLast?_eq_getLast hmem with ⟨hne, rfl⟩
  exact List.getLast_mem hne

lemma firstAfterIdx_eq_none_iff (cutoff : Int) (l : List Int) :
    firstAfterIdx cutoff l = none ↔ ∀ t ∈ l, ¬ cutoff < t := by
  induction l with
  | nil => simp [firstAfterIdx]
  | cons x xs ih =>
    rw [firstAfterIdx]
    by_cases hx : cutoff < x
    · simp [hx]
    · rw [if_neg hx]
      simp only [Option.map_eq_none', ih, List.mem_cons]
      constructor
      · intro h t ht
        rcases ht with rfl | ht
        · exact hx
        · exact h t ht
      · intro h t ht
        exact h t (Or.inr ht)

lemma drop_firstAfterIdx_eq_filter (cutoff : Int) (l : List Int)
    (hs : List.Pairwise (fun a b => a ≤ b) l) (i : Nat)
    (hi : firstAfterIdx cutoff l = some i) :
    l.drop i = l.filter (fun t => decide (cutoff < t)) := by
  induction l generalizing i with
  | nil => simp [firstAfterIdx] at hi
  | cons x xs ih =>
    rw [firstAfterIdx] at hi
    by_cases hx : cutoff < x
    · rw [if_pos hx] at hi
      injection hi with hi0
      have hall : ∀ t ∈ x :: xs, cutoff < t := by
        intro t ht
        rcases List.mem_cons.1 ht with rfl | ht
        · exact hx
        · exact lt_of_lt_of_le hx ((List.pairwise_cons.1 hs).1 t ht)
      rw [← hi0]
      simp only [List.drop_zero]
      symm
      exact List.filter_eq_self.mpr fun a ha => by simpa using hall a ha
    · rw [if_neg hx] at hi
      rcases Option.map_eq_some'.1 hi with ⟨j, hj, rfl⟩
      rw [List.drop_succ_cons]
      rw [List.filter_cons_of_neg (by simpa using hx)]
      exact ih (List.pairwise_cons.1 hs).2 j hj

lemma goCleanForbidden_eq_filter (cutoff : Int) (l : List Int)
    (hs : List.Pairwise (fun a b => a ≤ b) l)
    (hlast : ∀ x, l.getLast? = some x → cutoff < x) :
    goCleanForbidden l cutoff = l.filter (fun t => decide (cutoff < t)) := by
  cases hfa : firstAfterIdx cutoff l with
  | none =>
    cases l with
    | nil => rfl
    | cons x xs =>
      exfalso
      obtain ⟨y, hy⟩ : ∃ y, (x :: xs).getLast? = some y :=
        ⟨_, List.getLast?_eq_getLast_of_ne_nil (by simp)⟩
      have h1 := hlast y hy
      have h2 := (firstAfterIdx_eq_none_iff cutoff (x :: xs)).1 hfa y
        (mem_of_getLast?_eq _ _ hy)
      exact h2 h1
  | some i =>
    have hdrop := drop_firstAfterIdx_eq_filter cutoff l hs i hfa
    unfold goCleanForbidden
    rw [hfa]
    simp only [Option.getD_some]
    by_cases hi : i = 0
    · rw [if_pos hi]
      have hne : l ≠ [] := by
        intro h
        subst h
        simp [firstAfterIdx] at hfa
      obtain ⟨y, hy⟩ : ∃ y, l.getLast? = some y :=
        ⟨_, List.getLast?_eq_getLast_of_ne_nil hne⟩
      rw [hy]
      have hcy := hlast y hy
      dsimp only
      rw [if_neg (by omega)]
      rw [hi, List.drop_zero] at hdrop
      exact hdrop
    · rw [if_neg hi]
      exact hdrop

lemma goCleanForbidden_of_all_in (cutoff : Int) (l : List Int)
    (h : ∀ t ∈ l, cutoff < t) : goCleanForbidden l cutoff = l := by
  cases l with
  | nil => rfl
  | cons x xs =>
    have hx : cutoff < x := h x (by simp)
    unfold goCleanForbidden firstAfterIdx
    rw [if_pos hx]
    simp only [Option.getD_some]
    rw [if_pos trivial]
    obtain ⟨y, hy⟩ : ∃ y, (x :: xs).getLast? = some y :=
      ⟨_, List.getLast?_eq_getLast_of_ne_nil (by simp)⟩
    rw [hy]
    have hcy := h y (mem_of_getLast?_eq _ _ hy)
    dsimp only
    rw [if_neg (by omega)]

lemma shouldBackoff_disabled (m : Manager) (sc d : Nat) (now : Int)
    (h : m.enabled = false) :
    shouldBackoff m sc d now = ⟨m, false, 0, none⟩ := by
  unfold shouldBackoff
  rw [if_pos h]

lemma shouldBackoff_cancelled (m : Manager) (sc d : Nat) (now : Int)
    (hen : m.enabled = true) (hc : m.cancelled = true) :
    shouldBackoff m sc d now = ⟨m, false, 0, some .alreadyCancelled⟩ := by
  unfold shouldBackoff
  rw [if_neg (by simp [hen]), if_pos hc]

lemma shouldBackoff_not403 (m : Manager) (sc d : Nat) (now : Int)
    (hen : m.enabled = true) (hc : m.cancelled = false) (hsc : ¬ sc = 403) :
    shouldBackoff m sc d now = shouldBackoffRest m sc d := by
  unfold shouldBackoff
  rw [if_neg (by simp [hen]), if_neg (by simp [hc]), if_neg hsc]

lemma shouldBackoff_403_eq (m : Manager) (d : Nat) (now : Int)
    (hen : m.enabled = true) (hc : m.cancelled = false) :
    shouldBackoff m 403 d now =
      (if (goCleanForbidden (m.forbiddenErrors ++ [now])
              (now - m.forbiddenErrorWindow)).length ≥ m.forbiddenErrorThreshold then
        ⟨{ m with
            forbiddenErrors :=
              goCleanForbidden (m.forbiddenErrors ++ [now]) (now - m.forbiddenErrorWindow),
            cancelled := true,
            cancelInvoked := m.cancelInvoked || m.hasCancelFunc },
          false, 0,
          some (.forbiddenThreshold
            (goCleanForbidden (m.forbiddenErrors ++ [now])
              (now - m.forbiddenErrorWindow)).length)⟩
      else
        shouldBackoffRest
          { m with forbiddenErrors :=
              goCleanForbidden (m.forbiddenErrors ++ [now]) (now - m.forbiddenErrorWindow) }
          403 d) := by
  unfold shouldBackoff
  rw [if_neg (by simp [hen]), if_neg (by simp [hc]), if_pos rfl]
  rfl

@[simp] lemma activateBackoff_enabled (m : Manager) :
    (activateBackoff m).enabled = m.enabled := by
  unfold activateBackoff
  dsimp only
  split <;> (try split) <;> rfl

@[simp] lemma activateBackoff_cancelled (m : Manager) :
    (activateBackoff m).cancelled = m.cancelled := by
  unfold activateBackoff
  dsimp only
  split <;> (try split) <;> rfl

@[simp] lemma activateBackoff_forbiddenErrors (m : Manager) :
    (activateBackoff m).forbiddenErrors = m.forbiddenErrors := by
  unfold activateBackoff
  dsimp only
  split <;> (try split) <;> rfl

@[simp] lemma activateBackoff_forbiddenErrorThreshold (m : Manager) :
    (activateBackoff m).forbiddenErrorThreshold = m.forbiddenErrorThreshold := by
  unfold activateBackoff
  dsimp only
  split <;> (try split) <;> rfl

@[simp] lemma activateBackoff_forbiddenErrorWindow (m : Manager) :
    (activateBackoff m).forbiddenErrorWindow = m.forbiddenErrorWindow := by
  unfold activateBackoff
  dsimp only
  split <;> (try split) <;> rfl

@[simp] lemma activateBackoff_initialDelay (m : Manager) :
    (activateBackoff m).initialDelay = m.initialDelay := by
  unfold activateBackoff
  dsimp only
  split <;> (try split) <;> rfl

@[simp] lemma activateBackoff_maxDelay (m : Manager) :
    (activateBackoff m).maxDelay = m.maxDelay := by
  unfold activateBackoff
  dsimp only
  split <;> (try split) <;> rfl

@[simp] lemma activateBackoff_multiplier (m : Manager) :
    (activateBackoff m).multiplier = m.multiplier := by
  unfold activateBackoff
  dsimp only
  split <;> (try split) <;> rfl

@[simp] lemma activateBackoff_responseTimeDegradationThreshold (m : Manager) :
    (activateBackoff m).responseTimeDegradationThreshold = m.responseTimeDegradationThreshold := by
  unfold activateBackoff
  dsimp only
  split <;> (try split) <;> rfl

@[simp] lemma activateBackoff_baselineResponseTime (m : Manager) :
    (activateBackoff m).baselineResponseTime = m.baselineResponseTime := by
  unfold activateBackoff
  dsimp only
  split <;> (try split) <;> rfl

@[simp] lemma activateBackoff_recentResponseTimes (m : Manager) :
    (activateBackoff m).recentResponseTimes = m.recentResponseTimes := by
  unfold activateBackoff
  dsimp only
  split <;> (try split) <;> rfl

@[simp] lemma activateBackoff_responseTimeWindow (m : Manager) :
    (activateBackoff m).responseTimeWindow = m.responseTimeWindow := by
  unfold activateBackoff
  dsimp only
  split <;> (try split) <;> rfl

@[simp] lemma activateBackoff_hasCancelFunc (m : Manager) :
    (activateBackoff m).hasCancelFunc = m.hasCancelFunc := by
  unfold activateBackoff
  dsimp only
  split <;> (try split) <;> rfl

@[simp] lemma activateBackoff_cancelInvoked (m : Manager) :
    (activateBackoff m).cancelInvoked = m.cancelInvoked := by
  unfold activateBackoff
  dsimp only
  split <;> (try split) <;> rfl

@[simp] lemma resetBackoff_enabled (m : Manager) :
    (resetBackoff m).enabled = m.enabled := by
  unfold resetBackoff
  split <;> rfl

@[simp] lemma resetBackoff_cancelled (m : Manager) :
    (resetBackoff m).cancelled = m.cancelled := by
  unfold resetBackoff
  split <;> rfl

@[simp] lemma resetBackoff_forbiddenErrors (m : Manager) :
    (resetBackoff m).forbiddenErrors = m.forbiddenErrors := by
  unfold resetBackoff
  split <;> rfl

@[simp] lemma resetBackoff_forbiddenErrorThreshold (m : Manager) :
    (resetBackoff m).forbiddenErrorThreshold = m.forbiddenErrorThreshold := by
  unfold resetBackoff
  split <;> rfl

@[simp] lemma resetBackoff_forbiddenErrorWindow (m : Manager) :
    (resetBackoff m).forbiddenErrorWindow = m.forbiddenErrorWindow := by
  unfold resetBackoff
  split <;> rfl

@[simp] lemma resetBackoff_initialDelay (m : Manager) :
    (resetBackoff m).initialDelay = m.initialDelay := by
  unfold resetBackoff
  split <;> rfl

@[simp] lemma resetBackoff_maxDelay (m : Manager) :
    (resetBackoff m).maxDelay = m.maxDelay := by
  unfold resetBackoff
  split <;> rfl

@[simp] lemma resetBackoff_multiplier (m : Manager) :
    (resetBackoff m).multiplier = m.multiplier := by
  unfold resetBackoff
  split <;> rfl

@[simp] lemma resetBackoff_responseTimeDegradationThreshold (m : Manager) :
    (resetBackoff m).responseTimeDegradationThreshold = m.responseTimeDegradationThreshold := by
  unfold resetBackoff
  split <;> rfl

@[simp] lemma resetBackoff_baselineResponseTime (m : Manager) :
    (resetBackoff m).baselineResponseTime = m.baselineResponseTime := by
  unfold resetBackoff
  split <;> rfl

@[simp] lemma resetBackoff_recentResponseTimes (m : Manager) :
    (resetBackoff m).recentResponseTimes = m.recentResponseTimes := by
  unfold resetBackoff
  split <;> rfl

@[simp] lemma resetBackoff_responseTimeWindow (m : Manager) :
    (resetBackoff m).responseTimeWindow = m.responseTimeWindow := by
  unfold resetBackoff
  split <;> rfl

@[simp] lemma resetBackoff_hasCancelFunc (m : Manager) :
    (resetBackoff m).hasCancelFunc = m.hasCancelFunc := by
  unfold resetBackoff
  split <;> rfl

@[simp] lemma resetBackoff_cancelInvoked (m : Manager) :
    (resetBackoff m).cancelInvoked = m.cancelInvoked := by
  unfold resetBackoff
  split <;> rfl

@[simp] lemma trackResponseTime_enabled (m : Manager) (d : Nat) :
    (trackResponseTime m d).enabled = m.enabled := by
  unfold trackResponseTime
  dsimp only
  split <;> (try split) <;> rfl

@[simp] lemma trackResponseTime_cancelled (m : Manager) (d : Nat) :
    (trackResponseTime m d).cancelled = m.cancelled := by
  unfold trackResponseTime
  dsimp only
  split <;> (try split) <;> rfl

@[simp] lemma trackResponseTime_forbiddenErrors (m : Manager) (d : Nat) :
    (trackResponseTime m d).forbiddenErrors = m.forbiddenErrors := by
  unfold trackResponseTime
  dsimp only
  split <;> (try split) <;> rfl

@[simp] lemma trackResponseTime_forbiddenErrorThreshold (m : Manager) (d : Nat) :
    (trackResponseTime m d).forbiddenErrorThreshold = m.forbiddenErrorThreshold := by
  unfold trackResponseTime
  dsimp only
  split <;> (try split) <;> rfl

@[simp] lemma trackResponseTime_forbiddenErrorWindow (m : Manager) (d : Nat) :
    (trackResponseTime m d).forbiddenErrorWindow = m.forbiddenErrorWindow := by
  unfold trackResponseTime
  dsimp only
  split <;> (try split) <;> rfl

@[simp] lemma trackResponseTime_initialDelay (m : Manager) (d : Nat) :
    (trackResponseTime m d).initialDelay = m.initialDelay := by
  unfold trackResponseTime
  dsimp only
  split <;> (try split) <;> rfl

@[simp] lemma trackResponseTime_maxDelay (m : Manager) (d : Nat) :
    (trackResponseTime m d).maxDelay = m.maxDelay := by
  unfold trackResponseTime
  dsimp only
  split <;> (try split) <;> rfl

@[simp] lemma trackResponseTime_multiplier (m : Manager) (d : Nat) :
    (trackResponseTime m d).multiplier = m.multiplier := by
  unfold trackResponseTime
  dsimp only
  split <;> (try split) <;> rfl

@[simp] lemma trackResponseTime_responseTimeDegradationThreshold (m : Manager) (d : Nat) :
    (trackResponseTime m d).responseTimeDegradationThreshold = m.responseTimeDegradationThreshold := by
  unfold trackResponseTime
  dsimp only
  split <;> (try split) <;> rfl

@[simp] lemma trackResponseTime_currentDelay (m : Manager) (d : Nat) :
    (trackResponseTime m d).currentDelay = m.currentDelay := by
  unfold trackResponseTime
  dsimp only
  split <;> (try split) <;> rfl

@[simp] lemma trackResponseTime_backoffActive (m : Manager) (d : Nat) :
    (trackResponseTime m d).backoffActive = m.backoffActive := by
  unfold trackResponseTime
  dsimp only
  split <;> (try split) <;> rfl

@[simp] lemma trackResponseTime_responseTimeWindow (m : Manager) (d : Nat) :
    (trackResponseTime m d).responseTimeWindow = m.responseTimeWindow := by
  unfold trackResponseTime
  dsimp only
  split <;> (try split) <;> rfl

@[simp] lemma trackResponseTime_hasCancelFunc (m : Manager) (d : Nat) :
    (trackResponseTime m d).hasCancelFunc = m.hasCancelFunc := by
  unfold trackResponseTime
  dsimp only
  split <;> (try split) <;> rfl

@[simp] lemma trackResponseTime_cancelInvoked (m : Manager) (d : Nat) :
    (trackResponseTime m d).cancelInvoked = m.cancelInvoked := by
  unfold trackResponseTime
  dsimp only
  split <;> (try split) <;> rfl

lemma shouldBackoffRest_err (m : Manager) (sc d : Nat) :
    (shouldBackoffRest m sc d).err = none := by
  unfold shouldBackoffRest
  dsimp only
  split <;> (try split) <;> (try split) <;> rfl

@[simp] lemma shouldBackoffRest_enabled (m : Manager) (sc d : Nat) :
    (shouldBackoffRest m sc d).manager.enabled = m.enabled := by
  unfold shouldBackoffRest
  dsimp only
  split <;> (try split) <;> (try split) <;> simp

@[simp] lemma shouldBackoffRest_cancelled (m : Manager) (sc d : Nat) :
    (shouldBackoffRest m sc d).manager.cancelled = m.cancelled := by
  unfold shouldBackoffRest
  dsimp only
  split <;> (try split) <;> (try split) <;> simp

@[simp] lemma shouldBackoffRest_forbiddenErrors (m : Manager) (sc d : Nat) :
    (shouldBackoffRest m sc d).manager.forbiddenErrors = m.forbiddenErrors := by
  unfold shouldBackoffRest
  dsimp only
  split <;> (try split) <;> (try split) <;> simp

@[simp] lemma shouldBackoffRest_forbiddenErrorThreshold (m : Manager) (sc d : Nat) :
    (shouldBackoffRest m sc d).manager.forbiddenErrorThreshold = m.forbiddenErrorThreshold := by
  unfold shouldBackoffRest
  dsimp only
  split <;> (try split) <;> (try split) <;> simp

@[simp] lemma shouldBackoffRest_forbiddenErrorWindow (m : Manager) (sc d : Nat) :
    (shouldBackoffRest m sc d).manager.forbiddenErrorWindow = m.forbiddenErrorWindow := by
  unfold shouldBackoffRest
  dsimp only
  split <;> (try split) <;> (try split) <;> simp

@[simp] lemma shouldBackoffRest_initialDelay (m : Manager) (sc d : Nat) :
    (shouldBackoffRest m sc d).manager.initialDelay = m.initialDelay := by
  unfold shouldBackoffRest
  dsimp only
  split <;> (try split) <;> (try split) <;> simp

@[simp] lemma shouldBackoffRest_maxDelay (m : Manager) (sc d : Nat) :
    (shouldBackoffRest m sc d).manager.maxDelay = m.maxDelay := by
  unfold shouldBackoffRest
  dsimp only
  split <;> (try split) <;> (try split) <;> simp

@[simp] lemma shouldBackoffRest_multiplier (m : Manager) (sc d : Nat) :
    (shouldBackoffRest m sc d).manager.multiplier = m.multiplier := by
  unfold shouldBackoffRest
  dsimp only
  split <;> (try split) <;> (try split) <;> simp

@[simp] lemma shouldBackoffRest_responseTimeDegradationThreshold (m : Manager) (sc d : Nat) :
    (shouldBackoffRest m sc d).manager.responseTimeDegradationThreshold = m.responseTimeDegradationThreshold := by
  unfold shouldBackoffRest
  dsimp only
  split <;> (try split) <;> (try split) <;> simp

@[simp] lemma shouldBackoffRest_responseTimeWindow (m : Manager) (sc d : Nat) :
    (shouldBackoffRest m sc d).manager.responseTimeWindow = m.responseTimeWindow := by
  unfold shouldBackoffRest
  dsimp only
  split <;> (try split) <;> (try split) <;> simp

@[simp] lemma shouldBackoffRest_hasCancelFunc (m : Manager) (sc d : Nat) :
    (shouldBackoffRest m sc d).manager.hasCancelFunc = m.hasCancelFunc := by
  unfold shouldBackoffRest
  dsimp only
  split <;> (try split) <;> (try split) <;> simp

@[simp] lemma shouldBackoffRest_cancelInvoked (m : Manager) (sc d : Nat) :
    (shouldBackoffRest m sc d).manager.cancelInvoked = m.cancelInvoked := by
  unfold shouldBackoffRest
  dsimp only
  split <;> (try split) <;> (try split) <;> simp

/-! ## Claim C7 -/

/-- C7: on every 403 observation by the enabled, non-cancelled controller
(positive window, chronologically ordered timestamps), every stored
forbidden-response timestamp strictly older than the window relative to the
observation instant is removed from the sliding list before the threshold
comparison: the resulting list is exactly the within-window part of the
appended list, every surviving entry lies within the window, and the
fatal-cancellation decision compares the threshold against that cleaned
list's length. -/
theorem C7_forbidden_window_expunge (m : Manager) (d : Nat) (now : Int)
    (hen : m.enabled = true) (hc : m.cancelled = false)
    (hw : 0 < m.forbiddenErrorWindow)
    (hsorted : List.Pairwise (fun a b => a ≤ b) (m.forbiddenErrors ++ [now])) :
    (shouldBackoff m 403 d now).manager.forbiddenErrors
        = (m.forbiddenErrors ++ [now]).filter
            (fun t => decide (now - m.forbiddenErrorWindow < t))
    ∧ (∀ t ∈ (shouldBackoff m 403 d now).manager.forbiddenErrors,
        now - m.forbiddenErrorWindow < t)
    ∧ ((shouldBackoff m 403 d now).err ≠ none
        ↔ m.forbiddenErrorThreshold
            ≤ ((m.forbiddenErrors ++ [now]).filter
                (fun t => decide (now - m.forbiddenErrorWindow < t))).length) := by
  have hlast : ∀ x, (m.forbiddenErrors ++ [now]).getLast? = some x →
      now - m.forbiddenErrorWindow < x := by
    intro x hx
    rw [List.getLast?_append_cons] at hx
    simp only [List.getLast?_singleton, Option.some.injEq] at hx
    omega
  have hfilter := goCleanForbidden_eq_filter (now - m.forbiddenErrorWindow)
    (m.forbiddenErrors ++ [now]) hsorted hlast
  rw [shouldBackoff_403_eq m d now hen hc]
  have hmem : ∀ t ∈ (m.forbiddenErrors ++ [now]).filter
      (fun t => decide (now - m.forbiddenErrorWindow < t)),
      now - m.forbiddenErrorWindow < t := by
    intro t ht
    have := List.of_mem_filter ht
    simpa using this
  by_cases hth :
      (goCleanForbidden (m.forbiddenErrors ++ [now])
        (now - m.forbiddenErrorWindow)).length ≥ m.forbiddenErrorThreshold
  · rw [if_pos hth]
    refine ⟨hfilter, ?_, ?_⟩
    · intro t ht
      rw [hfilter] at ht
      exact hmem t ht
    · simp only [ne_eq, Option.some_ne_none, not_false_iff, true_iff]
      rw [hfilter] at hth
      exact hth
  · rw [if_neg hth]
    refine ⟨?_, ?_, ?_⟩
    · rw [shouldBackoffRest_forbiddenErrors]
      exact hfilter
    · intro t ht
      rw [shouldBackoffRest_forbiddenErrors, hfilter] at ht
      exact hmem t ht
    · rw [shouldBackoffRest_err]
      rw [hfilter] at hth
      simp only [ne_eq, not_true_eq_false, false_iff]
      omega

/-- C7 witness: at observation instant 0 the stale entry at -100 is removed
and only the fresh observation remains. -/
theorem C7_forbidden_window_expunge_witness :
    (shouldBackoff c7Manager 403 7 0).manager.forbiddenErrors
        = (c7Manager.forbiddenErrors ++ [0]).filter
            (fun t => decide ((0 : Int) - c7Manager.forbiddenErrorWindow < t))
    ∧ (∀ t ∈ (shouldBackoff c7Manager 403 7 0).manager.forbiddenErrors,
        (0 : Int) - c7Manager.forbiddenErrorWindow < t)
    ∧ ((shouldBackoff c7Manager 403 7 0).err ≠ none
        ↔ c7Manager.forbiddenErrorThreshold
            ≤ ((c7Manager.forbiddenErrors ++ [0]).filter
                (fun t => decide ((0 : Int) - c7Manager.forbiddenErrorWindow < t))).length) :=
  C7_forbidden_window_expunge c7Manager 7 0 rfl rfl (by decide) (by decide)

/-! ## Claim C2 -/

lemma runManager_nil (m : Manager) : runManager m [] = m := rfl

lemma runManager_cons (m : Manager) (o : Observation) (os : List Observation) :
    runManager m (o :: os)
      = runManager (shouldBackoff m o.statusCode o.duration o.time).manager os := rfl

lemma runManager_append (m : Manager) (a b : List Observation) :
    runManager m (a ++ b) = runManager (runManager m a) b := by
  unfold runManager
  rw [List.foldl_append]

lemma runDecisions_cons (m : Manager) (o : Observation) (os : List Observation) :
    runDecisions m (o :: os)
      = shouldBackoff m o.statusCode o.duration o.time
          :: runDecisions (shouldBackoff m o.statusCode o.duration o.time).manager os := rfl

lemma runDecisions_append (m : Manager) (a b : List Observation) :
    runDecisions m (a ++ b) = runDecisions m a ++ runDecisions (runManager m a) b := by
  induction a generalizing m with
  | nil => simp [runDecisions, runManager_nil]
  | cons o os ih =>
    rw [List.cons_append, runDecisions_cons, runDecisions_cons, runManager_cons, ih,
      List.cons_append]

/-- Feeding a below-threshold batch of 403s, all lying within the window of
every later observation, never cancels, never errs, and accumulates exactly
the fed timestamps. -/
lemma run403s_below_threshold (d : Nat) (ts : List Int) :
    ∀ (m : Manager) (tmax : Int),
    m.enabled = true → m.cancelled = false →
    (∀ t ∈ m.forbiddenErrors, tmax - m.forbiddenErrorWindow < t) →
    (∀ t ∈ ts, tmax - m.forbiddenErrorWindow < t ∧ t ≤ tmax) →
    m.forbiddenErrors.length + ts.length < m.forbiddenErrorThreshold →
    (runManager m (ts.map fun t => ⟨403, d, t⟩)).cancelled = false
    ∧ (runManager m (ts.map fun t => ⟨403, d, t⟩)).enabled = true
    ∧ (runManager m (ts.map fun t => ⟨403, d, t⟩)).forbiddenErrors
        = m.forbiddenErrors ++ ts
    ∧ (runManager m (ts.map fun t => ⟨403, d, t⟩)).forbiddenErrorThreshold
        = m.forbiddenErrorThreshold
    ∧ (runManager m (ts.map fun t => ⟨403, d, t⟩)).forbiddenErrorWindow
        = m.forbiddenErrorWindow
    ∧ (runManager m (ts.map fun t => ⟨403, d, t⟩)).cancelInvoked = m.cancelInvoked
    ∧ (runManager m (ts.map fun t => ⟨403, d, t⟩)).hasCancelFunc = m.hasCancelFunc
    ∧ ∀ dec ∈ runDecisions m (ts.map fun t => ⟨403, d, t⟩), dec.err = none := by
  induction ts with
  | nil =>
    intro m tmax hen hc _ _ _
    simp [runManager_nil, runDecisions, hen, hc]
  | cons t ts ih =>
    intro m tmax hen hc hpre hts hlen
    have htm := hts t (by simp)
    have hwpos : (0 : Int) < m.forbiddenErrorWindow := by omega
    have hclean : goCleanForbidden (m.forbiddenErrors ++ [t])
        (t - m.forbiddenErrorWindow) = m.forbiddenErrors ++ [t] := by
      apply goCleanForbidden_of_all_in
      intro x hx
      rcases List.mem_append.1 hx with hx | hx
      · have := hpre x hx
        omega
      · simp only [List.mem_singleton] at hx
        omega
    have hnot : ¬ ((goCleanForbidden (m.forbiddenErrors ++ [t])
        (t - m.forbiddenErrorWindow)).length ≥ m.forbiddenErrorThreshold) := by
      rw [hclean]
      simp only [List.length_append, List.length_singleton]
      simp only [List.length_cons] at hlen
      omega
    have hstep : shouldBackoff m 403 d t
        = shouldBackoffRest
            { m with forbiddenErrors := m.forbiddenErrors ++ [t] } 403 d := by
      rw [shouldBackoff_403_eq m d t hen hc, if_neg hnot, hclean]
    have hih := ih (shouldBackoffRest
        { m with forbiddenErrors := m.forbiddenErrors ++ [t] } 403 d).manager tmax
      (by simp [hen]) (by simp [hc])
      (by
        simp only [shouldBackoffRest_forbiddenErrors, shouldBackoffRest_forbiddenErrorWindow]
        intro x hx
        rcases List.mem_append.1 hx with hx | hx
        · exact hpre x hx
        · simp only [List.mem_singleton] at hx
          subst hx
          exact htm.1)
      (by
        simp only [shouldBackoffRest_forbiddenErrorWindow]
        intro x hx
        exact hts x (by simp [hx]))
      (by
        simp only [shouldBackoffRest_forbiddenErrors,
          shouldBackoffRest_forbiddenErrorThreshold, List.length_append,
          List.length_singleton]
        simp only [List.length_cons] at hlen
        omega)
    obtain ⟨ih1, ih2, ih3, ih4, ih5, ih6, ih7, ih8⟩ := hih
    rw [List.map_cons, runManager_cons, runDecisions_cons]
    simp only [] at *
    rw [hstep] at *
    refine ⟨by simpa using ih1, by simpa using ih2, ?_, ?_, ?_, ?_, ?_, ?_⟩
    · rw [ih3]
      simp [List.append_assoc]
    · rw [ih4]
      simp
    · rw [ih5]
      simp
    · rw [ih6]
      simp
    · rw [ih7]
      simp
    · intro dec hdec
      rcases List.mem_cons.1 hdec with rfl | hdec
      · exact shouldBackoffRest_err _ _ _
      · exact ih8 dec hdec

/-- C2: for an enabled controller with threshold `th ≥ 1`, empty sliding
list and a cancel function registered or not: feeding exactly `th − 1`
status-403 observations within the window never sets the cancelled flag and
never returns an error; feeding `th` such observations sets the cancelled
flag, invokes the cancel function iff one is set, and returns the fatal
threshold error on the last observation; and once cancelled, every
subsequent observation returns a fatal error regardless of its status. -/
theorem C2_forbidden_threshold_cancellation (th : Nat) (w : Int) (d : Nat)
    (ts : List Int) (tmax : Int) (m0 : Manager)
    (hen : m0.enabled = true) (hc : m0.cancelled = false)
    (hfe : m0.forbiddenErrors = []) (hinv : m0.cancelInvoked = false)
    (hth0 : m0.forbiddenErrorThreshold = th) (hw0 : m0.forbiddenErrorWindow = w)
    (hth : 1 ≤ th)
    (hwin : ∀ t ∈ ts, tmax - w < t ∧ t ≤ tmax) :
    (ts.length = th - 1 →
      (runManager m0 (ts.map fun t => ⟨403, d, t⟩)).cancelled = false
      ∧ ∀ dec ∈ runDecisions m0 (ts.map fun t => ⟨403, d, t⟩), dec.err = none)
    ∧ (ts.length = th →
      (runManager m0 (ts.map fun t => ⟨403, d, t⟩)).cancelled = true
      ∧ (runManager m0 (ts.map fun t => ⟨403, d, t⟩)).cancelInvoked = m0.hasCancelFunc
      ∧ ∃ dec, (runDecisions m0 (ts.map fun t => ⟨403, d, t⟩)).getLast? = some dec
          ∧ dec.err = some (.forbiddenThreshold th))
    ∧ (∀ (m : Manager) (sc dd : Nat) (t : Int), m.enabled = true → m.cancelled = true →
        shouldBackoff m sc dd t = ⟨m, false, 0, some .alreadyCancelled⟩) := by
  refine ⟨?_, ?_, fun m sc dd t hmen hmc => shouldBackoff_cancelled m sc dd t hmen hmc⟩
  · intro hlen1
    have h := run403s_below_threshold d ts m0 tmax hen hc
      (by rw [hfe]; simp)
      (by rw [hw0]; exact hwin)
      (by rw [hfe, hth0]; simp; omega)
    exact ⟨h.1, h.2.2.2.2.2.2.2⟩
  · intro hlen2
    rcases List.eq_nil_or_concat ts with rfl | ⟨init, tl, rfl⟩
    · simp at hlen2
      omega
    · rw [List.concat_eq_append] at hwin hlen2 ⊢
      have hinitlen : init.length = th - 1 := by
        simp only [List.length_append, List.length_singleton] at hlen2
        omega
      have hrun := run403s_below_threshold d init m0 tmax hen hc
        (by rw [hfe]; simp)
        (by
          rw [hw0]
          intro x hx
          exact hwin x (by simp [hx]))
        (by rw [hfe, hth0]; simp; omega)
      obtain ⟨r1, r2, r3, r4, r5, r6, r7, r8⟩ := hrun
      rw [hfe, List.nil_append] at r3
      rw [hth0] at r4
      rw [hw0] at r5
      rw [hinv] at r6
      have htl := hwin tl (by simp)
      have hwpos : (0 : Int) < w := by omega
      have hclean : goCleanForbidden
          ((runManager m0 (init.map fun t => ⟨403, d, t⟩)).forbiddenErrors ++ [tl])
          (tl - (runManager m0 (init.map fun t => ⟨403, d, t⟩)).forbiddenErrorWindow)
          = (runManager m0 (init.map fun t => ⟨403, d, t⟩)).forbiddenErrors ++ [tl] := by
        rw [r3, r5]
        apply goCleanForbidden_of_all_in
        intro x hx
        rcases List.mem_append.1 hx with hx | hx
        · have := hwin x (by simp [hx])
          omega
        · simp only [List.mem_singleton] at hx
          omega
      have hge : (goCleanForbidden
          ((runManager m0 (init.map fun t => ⟨403, d, t⟩)).forbiddenErrors ++ [tl])
          (tl - (runManager m0 (init.map fun t => ⟨403, d, t⟩)).forbiddenErrorWindow)).length
          ≥ (runManager m0 (init.map fun t => ⟨403, d, t⟩)).forbiddenErrorThreshold := by
        rw [hclean, r3, r4]
        simp only [List.length_append, List.length_singleton]
        omega
      have hstep := shouldBackoff_403_eq
        (runManager m0 (init.map fun t => ⟨403, d, t⟩)) d tl r2 r1
      rw [if_pos hge, hclean] at hstep
      have hfinal : runManager m0 (((init ++ [tl]).map fun t => ⟨403, d, t⟩))
          = (shouldBackoff (runManager m0 (init.map fun t => ⟨403, d, t⟩)) 403 d tl).manager := by
        rw [List.map_append, runManager_append]
        rfl
      have hcount : ((runManager m0 (init.map fun t => ⟨403, d, t⟩)).forbiddenErrors
          ++ [tl]).length = th := by
        rw [r3]
        simp only [List.length_append, List.length_singleton]
        omega
      refine ⟨?_, ?_, ?_⟩
      · rw [hfinal, hstep]
      · rw [hfinal, hstep]
        show ((runManager m0 (init.map fun t => ⟨403, d, t⟩)).cancelInvoked
            || (runManager m0 (init.map fun t => ⟨403, d, t⟩)).hasCancelFunc)
            = m0.hasCancelFunc
        rw [r6, r7, Bool.false_or]
      · refine ⟨shouldBackoff (runManager m0 (init.map fun t => ⟨403, d, t⟩)) 403 d tl, ?_, ?_⟩
        · rw [List.map_append, runDecisions_append]
          have hsingle : runDecisions (runManager m0 (init.map fun t => ⟨403, d, t⟩))
              (([tl]).map fun t => ⟨403, d, t⟩)
              = [shouldBackoff (runManager m0 (init.map fun t => ⟨403, d, t⟩)) 403 d tl] := rfl
          rw [hsingle, List.getLast?_append_cons, List.getLast?_singleton]
        · rw [hstep]
          show some (BackoffErr.forbiddenThreshold _) = some (BackoffErr.forbiddenThreshold th)
          rw [hcount]

/-- C2 witness. -/
theorem C2_forbidden_threshold_cancellation_witness :
    ((runManager c2Manager (c2Times2.map fun t => ⟨403, 7, t⟩)).cancelled = false
      ∧ ∀ dec ∈ runDecisions c2Manager (c2Times2.map fun t => ⟨403, 7, t⟩), dec.err = none)
    ∧ ((runManager c2Manager (c2Times3.map fun t => ⟨403, 7, t⟩)).cancelled = true
      ∧ (runManager c2Manager (c2Times3.map fun t => ⟨403, 7, t⟩)).cancelInvoked
          = c2Manager.hasCancelFunc
      ∧ ∃ dec, (runDecisions c2Manager (c2Times3.map fun t => ⟨403, 7, t⟩)).getLast? = some dec
          ∧ dec.err = some (.forbiddenThreshold 3)) :=
  ⟨(C2_forbidden_threshold_cancellation 3 10 7 c2Times2 3 c2Manager rfl rfl rfl rfl rfl rfl
      (by decide) (by decide)).1 (by decide),
   (C2_forbidden_threshold_cancellation 3 10 7 c2Times3 3 c2Manager rfl rfl rfl rfl rfl rfl
      (by decide) (by decide)).2.1 (by decide)⟩

/-! ## Claim C1 -/

lemma le_ratToDur_mul (c : Nat) (mult : Rat) (h : 1 ≤ mult) :
    c ≤ ratToDur ((c : Rat) * mult) := by
  unfold ratToDur
  have h1 : ((c : Int) : Rat) ≤ (c : Rat) * mult := by
    push_cast
    exact le_mul_of_one_le_right (by positivity) h
  have h2 : (c : Int) ≤ Int.floor ((c : Rat) * mult) := Int.le_floor.mpr h1
  omega

lemma shouldBackoffRest_5xx (m : Manager) (sc d : Nat) (h5 : 500 ≤ sc ∧ sc < 600) :
    shouldBackoffRest m sc d
      = ⟨activateBackoff m, true, (activateBackoff m).currentDelay, none⟩ := by
  unfold shouldBackoffRest
  rw [if_pos h5]

lemma activateBackoff_of_inactive (m : Manager) (h : m.backoffActive = false) :
    (activateBackoff m).currentDelay = m.initialDelay
    ∧ (activateBackoff m).backoffActive = true := by
  unfold activateBackoff
  rw [if_pos h]
  exact ⟨rfl, rfl⟩

lemma activateBackoff_of_active (m : Manager) (h : m.backoffActive = true) :
    (activateBackoff m).currentDelay
      = min (ratToDur ((m.currentDelay : Rat) * m.multiplier)) m.maxDelay
    ∧ (activateBackoff m).backoffActive = true := by
  unfold activateBackoff
  rw [if_neg (by simp [h])]
  dsimp only
  constructor
  · split
    · rename_i hgt
      show m.maxDelay = _
      omega
    · rename_i hle
      show ratToDur ((m.currentDelay : Rat) * m.multiplier) = _
      omega
  · split <;> exact h

lemma resetBackoff_of_active (m : Manager) (h : m.backoffActive = true) :
    resetBackoff m = { m with backoffActive := false, currentDelay := m.initialDelay } := by
  unfold resetBackoff
  rw [if_pos h]

lemma trackResponseTime_baseline_of_ne (m : Manager) (d : Nat)
    (h : m.baselineResponseTime ≠ 0) :
    (trackResponseTime m d).baselineResponseTime = m.baselineResponseTime := by
  unfold trackResponseTime
  dsimp only
  rw [if_neg (fun hcon => h hcon.1)]

/-- C1 as amended: for the enabled, non-cancelled controller, a status in
[500, 600) returns `shouldBackoff = true` and activates backoff with
`delay = initialDelay` when backoff was inactive and
`delay = min(trunc(previousDelay × multiplier), maxDelay)` when it was
active, and (with multiplier ≥ 1, `initialDelay ≤ maxDelay`, and
`currentDelay ∈ [initialDelay, maxDelay]`) the returned delay always lies in
`[initialDelay, maxDelay]`; a status in [200, 400) whose post-tracking state
is not classified as degraded, observed while backoff is active, resets
`active = false` and `currentDelay = initialDelay`, and preserves the
baseline response time whenever the baseline was already established
(nonzero) — a recovery observation may still establish a zero baseline
through response-time tracking. -/
theorem C1_amended_backoff_transitions (m : Manager) (sc d : Nat) (now : Int)
    (hen : m.enabled = true) (hc : m.cancelled = false) :
    ((500 ≤ sc ∧ sc < 600) →
      (shouldBackoff m sc d now).backoff = true
      ∧ (shouldBackoff m sc d now).err = none
      ∧ (shouldBackoff m sc d now).manager.backoffActive = true
      ∧ (m.backoffActive = false →
          (shouldBackoff m sc d now).delay = m.initialDelay)
      ∧ (m.backoffActive = true →
          (shouldBackoff m sc d now).delay
            = min (ratToDur ((m.currentDelay : Rat) * m.multiplier)) m.maxDelay)
      ∧ (1 ≤ m.multiplier → m.initialDelay ≤ m.maxDelay →
          m.initialDelay ≤ m.currentDelay → m.currentDelay ≤ m.maxDelay →
          m.initialDelay ≤ (shouldBackoff m sc d now).delay
          ∧ (shouldBackoff m sc d now).delay ≤ m.maxDelay))
    ∧ ((200 ≤ sc ∧ sc < 400) → m.backoffActive = true →
        isResponseTimeDegraded (trackResponseTime m d) = false →
        (shouldBackoff m sc d now).manager.backoffActive = false
        ∧ (shouldBackoff m sc d now).manager.currentDelay = m.initialDelay
        ∧ (m.baselineResponseTime ≠ 0 →
            (shouldBackoff m sc d now).manager.baselineResponseTime
              = m.baselineResponseTime)) := by
  constructor
  · intro h5
    have hne : ¬ sc = 403 := by omega
    rw [shouldBackoff_not403 m sc d now hen hc hne, shouldBackoffRest_5xx m sc d h5]
    by_cases hact : m.backoffActive = true
    · obtain ⟨hdelay, hactive⟩ := activateBackoff_of_active m hact
      refine ⟨rfl, rfl, hactive,
        (fun h0 => absurd hact (by rw [h0]; simp)), fun _ => hdelay, ?_⟩
      intro hmult hinitmax hlow hhigh
      show m.initialDelay ≤ (activateBackoff m).currentDelay
        ∧ (activateBackoff m).currentDelay ≤ m.maxDelay
      rw [hdelay]
      have hge := le_ratToDur_mul m.currentDelay m.multiplier hmult
      omega
    · have hact0 : m.backoffActive = false := by
        cases hb : m.backoffActive
        · rfl
        · rw [hb] at hact; cases hact rfl
      obtain ⟨hdelay, hactive⟩ := activateBackoff_of_inactive m hact0
      refine ⟨rfl, rfl, hactive, fun _ => hdelay, ?_, ?_⟩
      · intro h1; rw [h1] at hact0; cases hact0
      · intro _ hinitmax _ _
        show m.initialDelay ≤ (activateBackoff m).currentDelay
          ∧ (activateBackoff m).currentDelay ≤ m.maxDelay
        rw [hdelay]
        omega
  · intro hsc hact hdeg
    have hne : ¬ sc = 403 := by omega
    rw [shouldBackoff_not403 m sc d now hen hc hne]
    unfold shouldBackoffRest
    rw [if_neg (by omega)]
    dsimp only
    rw [if_neg (by simp [hdeg])]
    rw [if_pos ⟨hsc.1, hsc.2, by simp [hact]⟩]
    rw [resetBackoff_of_active _ (by simp [hact])]
    refine ⟨rfl, by simp, ?_⟩
    intro hb
    show (trackResponseTime m d).baselineResponseTime = m.baselineResponseTime
    exact trackResponseTime_baseline_of_ne m d hb

/-- C1 counterexample: after nine tracked 50ns successes and one 5xx, the
controller is enabled, not cancelled, backoff-active, with zero baseline; the
next observation has status 200 (in [200, 400)), is not classified as
degraded, and does reset `active`/`currentDelay` — but it changes the
baseline response time from 0 to 50ns, so the claim's "leaving the baseline
response time unchanged" fails. -/
theorem C1_counterexample :
    c1CexManager.enabled = true
    ∧ c1CexManager.cancelled = false
    ∧ c1CexManager.backoffActive = true
    ∧ isResponseTimeDegraded (trackResponseTime c1CexManager 50) = false
    ∧ c1CexManager.baselineResponseTime = 0
    ∧ (shouldBackoff c1CexManager 200 50 0).manager.backoffActive = false
    ∧ (shouldBackoff c1CexManager 200 50 0).manager.currentDelay
        = c1CexManager.initialDelay
    ∧ (shouldBackoff c1CexManager 200 50 0).manager.baselineResponseTime = 50 := by
  have hact : c1CexManager.backoffActive = true := rfl
  have hb : (trackResponseTime c1CexManager 50).baselineResponseTime = 50 := rfl
  have hrts : (trackResponseTime c1CexManager 50).recentResponseTimes
      = List.replicate 10 50 := rfl
  have hwin20 : (trackResponseTime c1CexManager 50).responseTimeWindow = 20 := rfl
  have havg : getCurrentAverageResponseTime (trackResponseTime c1CexManager 50) = 50 := rfl
  have hθ : (trackResponseTime c1CexManager 50).responseTimeDegradationThreshold
      = 1 / 2 := rfl
  have hdeg : isResponseTimeDegraded (trackResponseTime c1CexManager 50) = false := by
    unfold isResponseTimeDegraded
    rw [if_neg (by rw [hb, hrts, hwin20]; norm_num)]
    rw [hb, havg, hθ]
    have h75 : ratToDur ((50 : Nat) * (1 + 1 / 2) : Rat) = 75 := by
      norm_num [ratToDur]
      decide
    rw [h75]
    norm_num
  have hstep : shouldBackoff c1CexManager 200 50 0
      = shouldBackoffRest c1CexManager 200 50 :=
    shouldBackoff_not403 _ _ _ _ rfl rfl (by omega)
  have hfin : shouldBackoff c1CexManager 200 50 0
      = ⟨resetBackoff (trackResponseTime c1CexManager 50), false, 0, none⟩ := by
    rw [hstep]
    unfold shouldBackoffRest
    rw [if_neg (by omega)]
    dsimp only
    rw [if_neg (by simp [hdeg])]
    rw [if_pos ⟨by omega, by omega, by simp [hact]⟩]
  have hreset := resetBackoff_of_active (trackResponseTime c1CexManager 50)
    (by simp [hact])
  refine ⟨rfl, rfl, hact, hdeg, rfl, ?_, ?_, ?_⟩
  · rw [hfin]
    show (resetBackoff (trackResponseTime c1CexManager 50)).backoffActive = false
    rw [hreset]
  · rw [hfin]
    show (resetBackoff (trackResponseTime c1CexManager 50)).currentDelay
        = c1CexManager.initialDelay
    rw [hreset]
    simp
  · rw [hfin]
    show (resetBackoff (trackResponseTime c1CexManager 50)).baselineResponseTime = 50
    rw [hreset]
    exact hb

/-- C1 witness: a 503 observation on the fresh (inactive) controller returns
`shouldBackoff = true` with delay 100ns, within `[initialDelay, maxDelay]`. -/
theorem C1_amended_backoff_transitions_witness :
    (shouldBackoff c1wManager 503 9 0).backoff = true
    ∧ (shouldBackoff c1wManager 503 9 0).delay = 100
    ∧ 100 ≤ (shouldBackoff c1wManager 503 9 0).delay
    ∧ (shouldBackoff c1wManager 503 9 0).delay ≤ 400 := by
  have h := (C1_amended_backoff_transitions c1wManager 503 9 0 rfl rfl).1 (by omega)
  obtain ⟨hb1, _, _, hinact, _, hbound⟩ := h
  obtain ⟨hlow, hhigh⟩ := hbound (by norm_num [c1wManager, newManager])
    (by norm_num [c1wManager, newManager])
    (by norm_num [c1wManager, newManager])
    (by norm_num [c1wManager, newManager])
  exact ⟨hb1, hinact rfl, hlow, hhigh⟩

/-! ## Claim C6 -/

lemma trackResponseTime_recent (m : Manager) (d : Nat) :
    (trackResponseTime m d).recentResponseTimes
      = (if (m.recentResponseTimes ++ [d]).length > m.responseTimeWindow
         then (m.recentResponseTimes ++ [d]).drop 1
         else m.recentResponseTimes ++ [d]) := by
  unfold trackResponseTime
  dsimp only
  split <;> (try split) <;> rfl

lemma trackResponseTime_length_le (m : Manager) (d : Nat)
    (h : m.recentResponseTimes.length ≤ m.responseTimeWindow) :
    (trackResponseTime m d).recentResponseTimes.length ≤ m.responseTimeWindow := by
  rw [trackResponseTime_recent]
  split
  · rename_i hgt
    simp only [List.length_drop, List.length_append, List.length_singleton]
    omega
  · rename_i hle
    simp only [List.length_append, List.length_singleton] at *
    omega

lemma trackResponseTime_baseline_set (m : Manager) (d : Nat)
    (h0 : m.baselineResponseTime = 0)
    (hlen : m.responseTimeWindow / 2 ≤ (trackResponseTime m d).recentResponseTimes.length) :
    (trackResponseTime m d).baselineResponseTime
      = getCurrentAverageResponseTime
          { m with recentResponseTimes := (trackResponseTime m d).recentResponseTimes } := by
  rw [trackResponseTime_recent] at hlen
  unfold trackResponseTime
  dsimp only
  rw [if_pos ⟨h0, hlen⟩]

lemma trackResponseTime_baseline_zero (m : Manager) (d : Nat)
    (h0 : m.baselineResponseTime = 0)
    (hlen : (trackResponseTime m d).recentResponseTimes.length < m.responseTimeWindow / 2) :
    (trackResponseTime m d).baselineResponseTime = 0 := by
  rw [trackResponseTime_recent] at hlen
  unfold trackResponseTime
  dsimp only
  rw [if_neg (fun hcon => by omega)]
  exact h0

lemma shouldBackoffRest_recent_not5xx (m : Manager) (sc d : Nat)
    (h5 : ¬ (500 ≤ sc ∧ sc < 600)) :
    (shouldBackoffRest m sc d).manager.recentResponseTimes
        = (trackResponseTime m d).recentResponseTimes
    ∧ (shouldBackoffRest m sc d).manager.baselineResponseTime
        = (trackResponseTime m d).baselineResponseTime := by
  unfold shouldBackoffRest
  rw [if_neg h5]
  dsimp only
  split
  · constructor <;> simp
  · split <;> constructor <;> simp

lemma shouldBackoffRest_baseline_of_ne (m : Manager) (sc d : Nat)
    (h : m.baselineResponseTime ≠ 0) :
    (shouldBackoffRest m sc d).manager.baselineResponseTime
      = m.baselineResponseTime := by
  unfold shouldBackoffRest
  dsimp only
  split
  · simp
  · split
    · rw [activateBackoff_baselineResponseTime, trackResponseTime_baseline_of_ne m d h]
    · split
      · rw [resetBackoff_baselineResponseTime, trackResponseTime_baseline_of_ne m d h]
      · exact trackResponseTime_baseline_of_ne m d h

lemma shouldBackoff_baseline_of_ne (m : Manager) (sc d : Nat) (now : Int)
    (h : m.baselineResponseTime ≠ 0) :
    (shouldBackoff m sc d now).manager.baselineResponseTime
      = m.baselineResponseTime := by
  unfold shouldBackoff
  split
  · rfl
  · split
    · rfl
    · split
      · dsimp only
        split
        · rfl
        · exact shouldBackoffRest_baseline_of_ne _ sc d h
      · exact shouldBackoffRest_baseline_of_ne _ sc d h

lemma trackResponseTime_fields_congr (m1 m2 : Manager) (d : Nat)
    (hr : m1.recentResponseTimes = m2.recentResponseTimes)
    (hw : m1.responseTimeWindow = m2.responseTimeWindow)
    (hb : m1.baselineResponseTime = m2.baselineResponseTime) :
    (trackResponseTime m1 d).recentResponseTimes
        = (trackResponseTime m2 d).recentResponseTimes
    ∧ (trackResponseTime m1 d).baselineResponseTime
        = (trackResponseTime m2 d).baselineResponseTime := by
  constructor
  · rw [trackResponseTime_recent, trackResponseTime_recent, hr, hw]
  · unfold trackResponseTime getCurrentAverageResponseTime
    dsimp only
    rw [hr, hw, hb]
    split <;> (try split) <;> (try split) <;> rfl

/-- C6 as amended: in the backoff controller, every enabled, non-cancelled
observation whose status lies outside [500, 600) — success or error alike,
below-threshold 403s included — appends its duration to the response-time
ring (unless it is a 403 that completes the cancellation threshold); 5xx
observations leave the ring unchanged; the ring never exceeds its capacity
of 20 and drops its oldest entry when full; the baseline is set at the first
observation at which the ring holds at least 10 samples, remains zero before
that point, and once nonzero never changes for the rest of the run. -/
theorem C6_amended_ring_baseline (m : Manager) (sc d : Nat) (now : Int)
    (obs : List Observation) :
    ((m.enabled = true → m.cancelled = false → ¬ (500 ≤ sc ∧ sc < 600) →
      ¬ sc = 403 →
      (shouldBackoff m sc d now).manager.recentResponseTimes
        = (trackResponseTime m d).recentResponseTimes
      ∧ (shouldBackoff m sc d now).manager.baselineResponseTime
        = (trackResponseTime m d).baselineResponseTime))
    ∧ (m.enabled = true → m.cancelled = false →
        (goCleanForbidden (m.forbiddenErrors ++ [now])
            (now - m.forbiddenErrorWindow)).length < m.forbiddenErrorThreshold →
        (shouldBackoff m 403 d now).manager.recentResponseTimes
          = (trackResponseTime m d).recentResponseTimes
        ∧ (shouldBackoff m 403 d now).manager.baselineResponseTime
          = (trackResponseTime m d).baselineResponseTime)
    ∧ (m.enabled = true → m.cancelled = false → (500 ≤ sc ∧ sc < 600) →
        (shouldBackoff m sc d now).manager.recentResponseTimes
          = m.recentResponseTimes)
    ∧ ((trackResponseTime m d).recentResponseTimes
        = (if (m.recentResponseTimes ++ [d]).length > m.responseTimeWindow
           then (m.recentResponseTimes ++ [d]).drop 1
           else m.recentResponseTimes ++ [d]))
    ∧ (m.recentResponseTimes.length ≤ m.responseTimeWindow →
        (trackResponseTime m d).recentResponseTimes.length ≤ m.responseTimeWindow)
    ∧ (m.recentResponseTimes.length = m.responseTimeWindow → 0 < m.responseTimeWindow →
        (trackResponseTime m d).recentResponseTimes
          = (m.recentResponseTimes ++ [d]).drop 1)
    ∧ (m.baselineResponseTime = 0 →
        m.responseTimeWindow / 2 ≤ (trackResponseTime m d).recentResponseTimes.length →
        (trackResponseTime m d).baselineResponseTime
          = getCurrentAverageResponseTime
              { m with recentResponseTimes := (trackResponseTime m d).recentResponseTimes })
    ∧ (m.baselineResponseTime = 0 →
        (trackResponseTime m d).recentResponseTimes.length < m.responseTimeWindow / 2 →
        (trackResponseTime m d).baselineResponseTime = 0)
    ∧ (m.baselineResponseTime ≠ 0 →
        (trackResponseTime m d).baselineResponseTime = m.baselineResponseTime)
    ∧ (m.baselineResponseTime ≠ 0 →
        (runManager m obs).baselineResponseTime = m.baselineResponseTime) := by
  refine ⟨?_, ?_, ?_, trackResponseTime_recent m d, trackResponseTime_length_le m d, ?_,
    trackResponseTime_baseline_set m d, trackResponseTime_baseline_zero m d,
    trackResponseTime_baseline_of_ne m d, ?_⟩
  · intro hen hc h5 h403
    rw [shouldBackoff_not403 m sc d now hen hc h403]
    exact shouldBackoffRest_recent_not5xx m sc d h5
  · intro hen hc hth
    rw [shouldBackoff_403_eq m d now hen hc, if_neg (by omega)]
    have hrest := shouldBackoffRest_recent_not5xx
      { m with forbiddenErrors :=
          goCleanForbidden (m.forbiddenErrors ++ [now]) (now - m.forbiddenErrorWindow) }
      403 d (by omega)
    have hcongr := trackResponseTime_fields_congr
      { m with forbiddenErrors :=
          goCleanForbidden (m.forbiddenErrors ++ [now]) (now - m.forbiddenErrorWindow) }
      m d rfl rfl rfl
    exact ⟨hrest.1.trans hcongr.1, hrest.2.trans hcongr.2⟩
  · intro hen hc h5
    have hne : ¬ sc = 403 := by omega
    rw [shouldBackoff_not403 m sc d now hen hc hne, shouldBackoffRest_5xx m sc d h5]
    show (activateBackoff m).recentResponseTimes = m.recentResponseTimes
    simp
  · intro hfull hpos
    rw [trackResponseTime_recent]
    rw [if_pos (by simp only [List.length_append, List.length_singleton]; omega)]
  · intro hb
    induction obs generalizing m with
    | nil => rfl
    | cons o os ih =>
      rw [runManager_cons]
      rw [ih _ (by rw [shouldBackoff_baseline_of_ne m o.statusCode o.duration o.time hb]; exact hb)]
      exact shouldBackoff_baseline_of_ne m o.statusCode o.duration o.time hb

/-- C6 counterexample: a 404 response — an error response, since
`success ⇔ 200 ≤ status < 400` — has its duration appended to the
response-time ring, so "only non-error responses append their duration"
fails. -/
theorem C6_counterexample :
    ¬ (200 ≤ 404 ∧ 404 < 400)
    ∧ c6Manager.recentResponseTimes = []
    ∧ (shouldBackoff c6Manager 404 77 0).manager.recentResponseTimes = [77] :=
  ⟨by omega, rfl, rfl⟩

/-- C6 witness: a 404 observation on the fresh controller appends to the
ring and keeps the zero baseline; the ring stays within capacity. -/
theorem C6_amended_ring_baseline_witness :
    ((shouldBackoff c6Manager 404 77 0).manager.recentResponseTimes
        = (trackResponseTime c6Manager 77).recentResponseTimes)
    ∧ ((shouldBackoff c6Manager 403 77 0).manager.recentResponseTimes
        = (trackResponseTime c6Manager 77).recentResponseTimes)
    ∧ (trackResponseTime c6Manager 77).recentResponseTimes.length
        ≤ c6Manager.responseTimeWindow
    ∧ (trackResponseTime c6Manager 77).baselineResponseTime = 0 := by
  have h := C6_amended_ring_baseline c6Manager 404 77 0 []
  exact ⟨(h.1 rfl rfl (by omega) (by omega)).1,
    (h.2.1 rfl rfl (by decide)).1,
    h.2.2.2.2.1 (by decide),
    h.2.2.2.2.2.2.2.1 rfl (by decide)⟩

/-! ## Claim C4 -/

/-- C4: the parser tries the sitemap-index, URL-set and plain-text stages in
order and accepts the first that yields a non-empty list; a valid sitemap
index or URL set returns exactly its `<loc>` list (so the returned length
equals the number of `<loc>` elements), a plain-text body returns exactly
its URL lines (the returned length equals the number of trimmed lines
beginning with http:// or https://), and when no stage yields results the
parser fails with the format error instead of returning a list. -/
theorem C4_parser_order_and_lengths (body : SitemapBody) :
    (∀ locs, body.indexUnmarshal = some locs → locs ≠ [] →
      parseXML body = .ok locs)
    ∧ ((body.indexUnmarshal = none ∨ body.indexUnmarshal = some []) →
        ∀ locs, body.urlsetUnmarshal = some locs → locs ≠ [] →
          parseXML body = .ok locs)
    ∧ ((body.indexUnmarshal = none ∨ body.indexUnmarshal = some []) →
        (body.urlsetUnmarshal = none ∨ body.urlsetUnmarshal = some []) →
        parsePlainText body.text ≠ [] →
        parseXML body = .ok (parsePlainText body.text))
    ∧ ((body.indexUnmarshal = none ∨ body.indexUnmarshal = some []) →
        (body.urlsetUnmarshal = none ∨ body.urlsetUnmarshal = some []) →
        parsePlainText body.text = [] →
        parseXML body = .error .formatFailure)
    ∧ (parsePlainText body.text).length = urlLineCount body.text := by
  have htext_ok : parsePlainText body.text ≠ [] →
      parseXMLText body = .ok (parsePlainText body.text) := by
    intro hne
    unfold parseXMLText
    rw [if_pos (List.length_pos.2 hne)]
  have htext_err : parsePlainText body.text = [] →
      parseXMLText body = .error .formatFailure := by
    intro hnil
    unfold parseXMLText
    rw [if_neg (by rw [hnil]; simp)]
  have hurlset_skip : (body.urlsetUnmarshal = none ∨ body.urlsetUnmarshal = some []) →
      parseXMLUrlset body = parseXMLText body := by
    intro hu
    unfold parseXMLUrlset
    rcases hu with hu | hu <;> rw [hu]
    simp
  have hindex_skip : (body.indexUnmarshal = none ∨ body.indexUnmarshal = some []) →
      parseXML body = parseXMLUrlset body := by
    intro hi
    unfold parseXML
    rcases hi with hi | hi <;> rw [hi]
    simp
  refine ⟨?_, ?_, ?_, ?_, ?_⟩
  · intro locs h hne
    unfold parseXML
    rw [h]
    simp only []
    rw [if_pos (List.length_pos.2 hne)]
  · intro hi locs h hne
    rw [hindex_skip hi]
    unfold parseXMLUrlset
    rw [h]
    simp only []
    rw [if_pos (List.length_pos.2 hne)]
  · intro hi hu hne
    rw [hindex_skip hi, hurlset_skip hu]
    exact htext_ok hne
  · intro hi hu hnil
    rw [hindex_skip hi, hurlset_skip hu]
    exact htext_err hnil
  · unfold parsePlainText urlLineCount
    rw [List.countP_eq_length_filter]

/-- C4 witness. -/
theorem C4_parser_order_and_lengths_witness :
    parseXML c4TextBody = .ok (parsePlainText c4TextBody.text)
    ∧ parseXML c4IndexBody
        = .ok ["https://example.com/s1.xml".toList, "https://example.com/s2.xml".toList]
    ∧ (parsePlainText c4TextBody.text).length = urlLineCount c4TextBody.text :=
  ⟨(C4_parser_order_and_lengths c4TextBody).2.2.1 (Or.inl rfl) (Or.inl rfl) (by decide),
   (C4_parser_order_and_lengths c4IndexBody).1
      ["https://example.com/s1.xml".toList, "https://example.com/s2.xml".toList] rfl
      (by decide),
   (C4_parser_order_and_lengths c4TextBody).2.2.2.2⟩

/-- C8 counterexample: in cache-verification mode the warm-up phase
(`warmUpCache`) and the verify phase (`verifyCache`) each call
`rate.NewLimiter`, so the two phases do not share a single rate-limiter
instance. -/
theorem C8_counterexample :
    (runWithCacheVerificationPlan c8Config).1.limiter.allocId
      ≠ (runWithCacheVerificationPlan c8Config).2.limiter.allocId := by
  decide

/-- C8 as amended: within each phase a single token-bucket limiter with rate
and burst both equal to the configured requests-per-second is constructed
and shared by all of that phase's workers, so the configured rate is the
aggregate cap of the phase's worker pool; the limiter and its parameters do
not depend on the worker count (doubling the workers leaves the configured
capacity unchanged); but the warm-up and verify phases construct distinct
limiter instances rather than sharing one across phases. -/
theorem C8_amended_limiter_sharing (cfg : CrawlerConfig) (k : Nat) :
    ((runStandardCrawlPlan cfg).limiter.rateLimit = cfg.requestRate
      ∧ (runStandardCrawlPlan cfg).limiter.burst = cfg.requestRate
      ∧ (runStandardCrawlPlan cfg).workerLimiters.length = cfg.maxWorkers
      ∧ ∀ w ∈ (runStandardCrawlPlan cfg).workerLimiters,
          w = (runStandardCrawlPlan cfg).limiter.allocId)
    ∧ ((runWithCacheVerificationPlan cfg).1.limiter.rateLimit = cfg.requestRate
      ∧ (runWithCacheVerificationPlan cfg).1.limiter.burst = cfg.requestRate
      ∧ (runWithCacheVerificationPlan cfg).2.limiter.rateLimit = cfg.requestRate
      ∧ (runWithCacheVerificationPlan cfg).2.limiter.burst = cfg.requestRate
      ∧ (∀ w ∈ (runWithCacheVerificationPlan cfg).1.workerLimiters,
          w = (runWithCacheVerificationPlan cfg).1.limiter.allocId)
      ∧ (∀ w ∈ (runWithCacheVerificationPlan cfg).2.workerLimiters,
          w = (runWithCacheVerificationPlan cfg).2.limiter.allocId)
      ∧ (runWithCacheVerificationPlan cfg).1.limiter.allocId
          ≠ (runWithCacheVerificationPlan cfg).2.limiter.allocId)
    ∧ (runStandardCrawlPlan { cfg with maxWorkers := k }).limiter
        = (runStandardCrawlPlan cfg).limiter := by
  refine ⟨⟨rfl, rfl, List.length_replicate _ _, ?_⟩,
    ⟨rfl, rfl, rfl, rfl, ?_, ?_,
      by simp [runWithCacheVerificationPlan, runPhase]⟩, rfl⟩
  · intro w hw
    exact (List.eq_of_mem_replicate hw)
  · intro w hw
    exact (List.eq_of_mem_replicate hw)
  · intro w hw
    exact (List.eq_of_mem_replicate hw)

/-- C8 witness. -/
theorem C8_amended_limiter_sharing_witness :
    (runStandardCrawlPlan { requestRate := 100, maxWorkers := 10 }).limiter.burst = 100
    ∧ (0 : Nat)
        = (runStandardCrawlPlan { requestRate := 100, maxWorkers := 10 }).limiter.allocId
    ∧ (runStandardCrawlPlan { requestRate := 100, maxWorkers := 20 }).limiter
        = (runStandardCrawlPlan { requestRate := 100, maxWorkers := 10 }).limiter := by
  have h := C8_amended_limiter_sharing { requestRate := 100, maxWorkers := 10 } 20
  exact ⟨h.1.2.1, h.1.2.2.2 0 (by decide), h.2.2⟩

end SitemapCrawler

